import Mathlib

/-! # Farm.js: the request dispatcher

A shallow embedding of `src/Farm.js`: the `Farm` class (constructor, the
`'request'` handler registered in `init`, `isAtCapacity`) and the two helpers
`recieveRequestData` and `jsonTryParse`.

JavaScript values are embedded as the data type `JsVal`.  The backend
operations (`info`, `status`, `callShepard`, `getShepardBehbbles`,
`getBehbble`) are overridable methods of the class; they are embedded as the
record `Backend`, whose fields say how each call ends (`CallResult`).
The handler is the function `Farm.onRequest`; it returns an `Outcome` that
records every observable step: the `Content-Type` header, the bodies passed to
`response.end`, the backend calls made (with their arguments), the value of
`this.lastStatus` afterwards, and the exception with which the handler's
promise rejects, if any.
-/

set_option autoImplicit false

/-! ## JavaScript values -/

/-- A JavaScript string: its sequence of UTF-16 code units. -/
abbrev JsString := List Nat

/-- The JavaScript string written by an ASCII literal of the source. -/
def ascii (s : String) : JsString := s.toList.map Char.toNat

/-- JavaScript values: `undefined`, `null`, booleans, numbers (integral ones,
    which is all the dispatcher itself produces), strings, arrays, plain objects
    and `Error` instances.  The fields of an object are listed in definition
    order; as in an object literal or a JSON text, a later entry for a key
    overrides an earlier one.  Functions are not values of the embedding, so a
    property of an object is never callable. -/
inductive JsVal where
  | undefined
  | null
  | bool (b : Bool)
  | num (n : Int)
  | str (s : JsString)
  | arr (xs : List JsVal)
  | obj (fields : List (JsString × JsVal))
  | error (name message : JsString)

/-- What a rejected handler promise carries: a `TypeError` raised by the
    language itself, or a value thrown (or rejected with) by the backend. -/
inductive Exn where
  | typeError
  | thrown (e : JsVal)

/-- ToBoolean: the truthiness test behind `!x`, `!!x`, `x || y` and `if (x)`. -/
def truthy : JsVal → Bool
  | .undefined => false
  | .null => false
  | .bool b => b
  | .num n => n != 0
  | .str s => !s.isEmpty
  | .arr _ => true
  | .obj _ => true
  | .error _ _ => true

/-- The test `typeof x === "undefined"`. -/
def isUndefined : JsVal → Bool
  | .undefined => true
  | _ => false

/-- The expression `a || b`. -/
def orElse (a b : JsVal) : JsVal := if truthy a then a else b

/-- The value of key `k` among object fields: the last entry for `k` wins. -/
def lookupField (k : JsString) : List (JsString × JsVal) → Option JsVal
  | [] => none
  | (k', v) :: rest =>
    match lookupField k rest with
    | some w => some w
    | none => if k' = k then some v else none

/-- Property read `v.k`, for the property names the dispatcher reads (`query`,
    `isChoice`, `err`, `code`, `choices`, `id`, `name`, `description`,
    `capacity`): none of them is an index, `length` or a prototype property.
    Reading a property of `undefined` or `null` raises a `TypeError`; primitives
    and arrays have none of these properties. -/
def getProp (v : JsVal) (k : JsString) : Except Exn JsVal :=
  match v with
  | .undefined => .error .typeError
  | .null => .error .typeError
  | .obj fs => .ok ((lookupField k fs).getD .undefined)
  | .error n m =>
    if k = ascii "name" then .ok (.str n)
    else if k = ascii "message" then .ok (.str m)
    else .ok .undefined
  | _ => .ok .undefined

/-- Does the object define its own `toString` property? -/
def hasOwnToString (fs : List (JsString × JsVal)) : Bool :=
  (lookupField (ascii "toString") fs).isSome

/-- The method `Error.prototype.toString`. -/
def errorToString (name message : JsString) : JsString :=
  if name.isEmpty then message
  else if message.isEmpty then name
  else name ++ ascii ": " ++ message

mutual
/-- The abstract operation ToString, behind `String(v)` and template literals;
    `none` is a `TypeError`.  An integer prints in decimal (as JavaScript does
    below `10^21`).  A plain object prints as `[object Object]`, unless it
    defines its own `toString`, which is then not callable. -/
def jsToString : JsVal → Option JsString
  | .undefined => some (ascii "undefined")
  | .null => some (ascii "null")
  | .bool true => some (ascii "true")
  | .bool false => some (ascii "false")
  | .num n => some (ascii (toString n))
  | .str s => some s
  | .arr xs => jsJoin xs
  | .obj fs => if hasOwnToString fs then none else some (ascii "[object Object]")
  | .error n m => some (errorToString n m)
/-- The method `Array.prototype.join` with the default separator `,`:
    `undefined` and `null` elements print as the empty string. -/
def jsJoin : List JsVal → Option JsString
  | [] => some []
  | [x] => jsElem x
  | x :: y :: rest =>
    match jsElem x, jsJoin (y :: rest) with
    | some a, some b => some (a ++ 44 :: b)
    | _, _ => none
/-- One element of a joined array. -/
def jsElem : JsVal → Option JsString
  | .undefined => some []
  | .null => some []
  | .bool true => some (ascii "true")
  | .bool false => some (ascii "false")
  | .num n => some (ascii (toString n))
  | .str s => some s
  | .arr xs => jsJoin xs
  | .obj fs => if hasOwnToString fs then none else some (ascii "[object Object]")
  | .error n m => some (errorToString n m)
end

/-- The method call `v.toString()`: a `TypeError` on `undefined` and `null`,
    the string form of `v` otherwise. -/
def toStringMethod : JsVal → Option JsString
  | .undefined => none
  | .null => none
  | v => jsToString v

/-- The call `s.slice(0, e)` for an integer `e`: a negative `e` counts from the
    end of the string. -/
def jsSlice (s : JsString) (e : Int) : JsString :=
  if e < 0 then s.take ((s.length : Int) + e).toNat else s.take e.toNat

/-- The call `s.split(sep)` for a one-character separator. -/
def jsSplit (sep : Nat) : JsString → List JsString
  | [] => [[]]
  | c :: cs =>
    if c = sep then [] :: jsSplit sep cs
    else
      match jsSplit sep cs with
      | [] => [[c]]
      | seg :: rest => (c :: seg) :: rest

/-- Indexing `parts[i]` into the array returned by `split`: `undefined` past the
    end. -/
def elemAt (parts : List JsString) (i : Nat) : JsVal :=
  match parts[i]? with
  | some s => .str s
  | none => .undefined

/-- The call `s.startsWith(p)`. -/
def startsWith (s p : JsString) : Bool := p.isPrefixOf s

/-- Set key `k` of an object under construction: an existing key keeps its
    place and takes the new value. -/
def setField (k : JsString) (v : JsVal) :
    List (JsString × JsVal) → List (JsString × JsVal)
  | [] => [(k, v)]
  | (k', v') :: rest =>
    if k' = k then (k, v) :: rest.filter (fun p => p.1 != k)
    else (k', v') :: setField k v rest

/-- The own enumerable properties that `...v` copies in an object literal. -/
def ownEnumerable : JsVal → List (JsString × JsVal)
  | .obj fs => fs
  | .arr xs => xs.enum.map (fun p => (ascii (toString p.1), p.2))
  | .str s => s.enum.map (fun p => (ascii (toString p.1), JsVal.str [p.2]))
  | _ => []

/-- The object literal `{ ...base, ...v }`. -/
def spreadInto (base : List (JsString × JsVal)) (v : JsVal) : List (JsString × JsVal) :=
  (ownEnumerable v).foldl (fun acc p => setField p.1 p.2 acc) base

/-! ## The backend contract -/

/-- How a call of a backend method ends: it throws before returning, it returns
    a plain value (the method is not `async`), or it returns a promise that is
    fulfilled with a value or rejected with a reason. -/
inductive CallResult where
  | throws (e : JsVal)
  | returns (v : JsVal)
  | resolves (v : JsVal)
  | rejects (e : JsVal)

/-- The five overridable methods of the class, as seen by one request.  The
    `settings` argument of `callShepard` is `{request, response, isChoice}`; only
    `isChoice` is data. -/
structure Backend where
  info : CallResult
  status : CallResult
  callShepard : JsString → Bool → CallResult
  getShepardBehbbles : JsVal → CallResult
  getBehbble : JsVal → JsVal → CallResult

/-- A backend call made by the dispatcher, with its arguments. -/
inductive Call where
  | info
  | status
  | callShepard (query : JsString) (isChoice : Bool)
  | getShepardBehbbles (shepardID : JsVal)
  | getBehbble (shepardID behbbleID : JsVal)

/-- The expression `await call`. -/
def awaitCall : CallResult → Except Exn JsVal
  | .throws e => .error (.thrown e)
  | .returns v => .ok v
  | .resolves v => .ok v
  | .rejects e => .error (.thrown e)

/-- The error code table `Farm.ERROR_CODES`. -/
def UNEXPECTED_ERROR : Int := 1
/-- The code `Farm.ERROR_CODES.INVALID_SHEPARD_ID`. -/
def INVALID_SHEPARD_ID : Int := 2
/-- The code `Farm.ERROR_CODES.INVALID_SHEPARD_QUERY`. -/
def INVALID_SHEPARD_QUERY : Int := 3
/-- The code `Farm.ERROR_CODES.INVALID_BEHBBLE_ID`. -/
def INVALID_BEHBBLE_ID : Int := 4
/-- The code `Farm.ERROR_CODES.NO_QUERY_PROVIDED`. -/
def NO_QUERY_PROVIDED : Int := 5
/-- The code `Farm.ERROR_CODES.SHEPARD_NOT_FOUND`. -/
def SHEPARD_NOT_FOUND : Int := 6
/-- The code `Farm.ERROR_CODES.REACHED_CAPACITY`. -/
def REACHED_CAPACITY : Int := 7
/-- The code `Farm.ERROR_CODES.CUSTOM_ERROR`. -/
def CUSTOM_ERROR : Int := 8

/-- The expression
    `await call.catch(err => ({err: err.toString(), code: UNEXPECTED_ERROR}))`.
    A throw inside the method happens before `.catch` is reached; a plain return
    value has no callable `catch`; `err.toString()` may itself raise. -/
def awaitCatch : CallResult → Except Exn JsVal
  | .throws e => .error (.thrown e)
  | .returns _ => .error .typeError
  | .resolves v => .ok v
  | .rejects e =>
    match toStringMethod e with
    | none => .error .typeError
    | some s => .ok (.obj [(ascii "err", .str s), (ascii "code", .num UNEXPECTED_ERROR)])

/-! ## The Farm -/

/-- The instance state the dispatcher uses: `this.lastStatus` and
    `this.settings.maxQueryLength`. -/
structure Farm where
  lastStatus : JsVal
  maxQueryLength : Int

/-- The constructor argument: `settings.status` (`undefined` when absent) and
    `settings.maxQueryLength` (an integer when supplied). -/
structure Settings where
  status : JsVal
  maxQueryLength : Option Int

/-- The static field `Farm.version`. -/
def Farm.version : JsString := ascii "1.0.0"

/-- The expression `this.version` of the `/info` handler: `version` is declared
    `static`, so it is a property of the class and not of its instances. -/
def Farm.thisVersion : JsVal := .undefined

/-- The constructor: `lastStatus = {capacity: 0, ...(settings.status || {})}` and
    `settings.maxQueryLength || 256`. -/
def Farm.constructor (settings : Settings) : Farm :=
  { lastStatus := .obj (spreadInto [(ascii "capacity", .num 0)] (orElse settings.status (.obj [])))
    maxQueryLength :=
      match settings.maxQueryLength with
      | some m => if m != 0 then m else 256
      | none => 256 }

/-- The comparison `v >= 1`: the operand is turned into a number.  Text is read
    by the library's StringToNumber, which stays a parameter: `textGeOne s` says
    whether the text `s` reads as a number that is at least 1.  `undefined` and
    a plain object read as `NaN`, `null` and `false` as 0, `true` as 1; an array
    and an `Error` are first turned into text; an object that defines its own
    `toString` cannot be turned into a primitive (`TypeError`). -/
def geOne (textGeOne : JsString → Bool) : JsVal → Except Exn Bool
  | .undefined => .ok false
  | .null => .ok false
  | .bool b => .ok b
  | .num n => .ok (decide (1 ≤ n))
  | .str s => .ok (textGeOne s)
  | .arr xs =>
    match jsJoin xs with
    | some s => .ok (textGeOne s)
    | none => .error .typeError
  | .obj fs => if hasOwnToString fs then .error .typeError else .ok false
  | .error n m => .ok (textGeOne (errorToString n m))

/-- The method `isAtCapacity`: `this.lastStatus.capacity >= 1` (source lines
    184-186). -/
def Farm.isAtCapacity (textGeOne : JsString → Bool) (self : Farm) : Except Exn Bool :=
  match getProp self.lastStatus (ascii "capacity") with
  | .error ex => .error ex
  | .ok capacity => geOne textGeOne capacity

/-! ## Requests -/

/-- The request data the handler destructures (`headers` is read but never
    used). -/
structure RequestData where
  method : JsString
  url : JsString
  body : JsVal

/-- The helper `jsonTryParse`, over the library function `JSON.parse`. -/
def jsonTryParse (jsonParse : JsString → Except Exn JsVal) (data : JsString) : JsVal :=
  match jsonParse data with
  | .ok v => v
  | .error _ => .null

/-- The helper `recieveRequestData` on a stream that ends normally after the
    given chunks: the body is parsed when at least one chunk arrived and is
    `null` otherwise. -/
def recieveRequestData (jsonParse : JsString → Except Exn JsVal)
    (method url : JsString) (chunks : List JsString) : RequestData :=
  { method := method
    url := url
    body := if chunks.length > 0 then jsonTryParse jsonParse chunks.flatten else .null }

/-! ## The request handler -/

/-- A body passed to `response.end`: `sendResponse(json)` passes
    `JSON.stringify(json)`, the fallback passes a text. -/
inductive Body where
  | json (v : JsVal)
  | text (s : JsString)

/-- Everything one run of the handler does. -/
structure Outcome where
  contentType : JsString
  written : List Body
  calls : List Call
  lastStatus : JsVal
  threw : Option Exn

/-- The state after the five `setHeader` calls that open the handler. -/
def Outcome.start (self : Farm) : Outcome :=
  { contentType := ascii "application/json"
    written := []
    calls := []
    lastStatus := self.lastStatus
    threw := none }

/-- The local function `sendResponse`. -/
def sendResponse (o : Outcome) (json : JsVal) : Outcome :=
  { o with written := o.written ++ [.json json] }

/-- An exception leaves the handler: its promise rejects. -/
def raise (o : Outcome) (ex : Exn) : Outcome :=
  { o with threw := some ex }

/-- Record a backend call. -/
def invoke (o : Outcome) (c : Call) : Outcome :=
  { o with calls := o.calls ++ [c] }

/-- An error envelope `{err: message, code: code}`. -/
def errorEnvelope (message : JsVal) (code : JsVal) : JsVal :=
  .obj [(ascii "err", message), (ascii "code", code)]

/-- The `/info` branch (source lines 50-57). -/
def Farm.onInfo (backend : Backend) (o : Outcome) : Outcome :=
  let o := invoke o .info
  match awaitCall backend.info with
  | .error ex => raise o ex
  | .ok r =>
    sendResponse o (.obj (spreadInto
      [ (ascii "is_farm", .bool true),
        (ascii "name", .str (ascii "Untitled Farm")),
        (ascii "description", .str (ascii "A quiet farm...")),
        (ascii "version", Farm.thisVersion) ]
      (orElse r (.obj []))))

/-- The `/status` branch (source lines 58-66). -/
def Farm.onStatus (backend : Backend) (o : Outcome) : Outcome :=
  let o := invoke o .status
  match awaitCall backend.status with
  | .error ex => raise o ex
  | .ok r =>
    let status := JsVal.obj (spreadInto [(ascii "capacity", .num 0)] (orElse r (.obj [])))
    sendResponse { o with lastStatus := status } status

/-- The response to a truthy backend result that may carry `err`: the shared
    pattern of source lines 90-95, 125-130 and 161-166.  A truthy `err` is
    forwarded with `result.code || CUSTOM_ERROR`; otherwise the branch goes on
    with `otherwise`. -/
def forwardErr (o : Outcome) (result : JsVal) (otherwise : Outcome) : Outcome :=
  match getProp result (ascii "err") with
  | .error ex => raise o ex
  | .ok err =>
    if truthy err then
      match getProp result (ascii "code") with
      | .error ex => raise o ex
      | .ok code => sendResponse o (errorEnvelope err (orElse code (.num CUSTOM_ERROR)))
    else otherwise

/-- The success envelope of `/call_shepard` (source lines 97-105). -/
def shepardSuccess (o : Outcome) (shepardResponse : JsVal) : Outcome :=
  match getProp shepardResponse (ascii "choices") with
  | .error ex => raise o ex
  | .ok choices =>
    if !isUndefined choices then
      sendResponse o (.obj [(ascii "success", .bool true), (ascii "choices", choices)])
    else
      match getProp shepardResponse (ascii "id") with
      | .error ex => raise o ex
      | .ok id => sendResponse o (.obj [(ascii "success", .bool true), (ascii "shepard", id)])

/-- The response of `/call_shepard` to the awaited `shepardResponse` (source
    lines 86-105). -/
def respondCallShepard (o : Outcome) (shepardResponse : JsVal) : Outcome :=
  if !truthy shepardResponse then
    sendResponse o (errorEnvelope (.str (ascii "Invalid Shepard Query"))
      (.num INVALID_SHEPARD_QUERY))
  else forwardErr o shepardResponse (shepardSuccess o shepardResponse)

/-- The `/call_shepard` branch (source lines 67-105). -/
def Farm.onCallShepard (self : Farm) (backend : Backend) (req : RequestData)
    (o : Outcome) : Outcome :=
  match getProp req.body (ascii "query") with
  | .error ex => raise o ex
  | .ok farm_query =>
    if isUndefined farm_query then
      sendResponse o (errorEnvelope (.str (ascii "A Shepard Query could not be found"))
        (.num NO_QUERY_PROVIDED))
    else
      match jsToString farm_query with
      | none => raise o .typeError
      | some text =>
        let farm_query := jsSlice text self.maxQueryLength
        match getProp req.body (ascii "isChoice") with
        | .error ex => raise o ex
        | .ok flag =>
          let isChoice := truthy flag
          let o := invoke o (.callShepard farm_query isChoice)
          match awaitCatch (backend.callShepard farm_query isChoice) with
          | .error ex => raise o ex
          | .ok shepardResponse => respondCallShepard o shepardResponse

/-- The response of `/shepard` to the awaited `behbbles` (source lines
    121-134). -/
def respondShepard (o : Outcome) (behbbles : JsVal) : Outcome :=
  if !truthy behbbles then
    sendResponse o (errorEnvelope (.str (ascii "Invalid Shepard ID")) (.num INVALID_SHEPARD_ID))
  else forwardErr o behbbles (sendResponse o (.obj [(ascii "behbbles", behbbles)]))

/-- The `/shepard` branch (source lines 106-134). -/
def Farm.onShepard (backend : Backend) (req : RequestData) (o : Outcome) : Outcome :=
  let shepardID := elemAt (jsSplit 47 req.url) 2
  if !truthy shepardID then
    sendResponse o (errorEnvelope (.str (ascii "Invalid Shepard ID")) (.num INVALID_SHEPARD_ID))
  else
    let o := invoke o (.getShepardBehbbles shepardID)
    match awaitCatch (backend.getShepardBehbbles shepardID) with
    | .error ex => raise o ex
    | .ok behbbles => respondShepard o behbbles

/-- The response of `/behbble` to the awaited `behbble` (source lines 157-166):
    a truthy result without a truthy `err` leaves the branch without a write. -/
def respondBehbble (o : Outcome) (behbble : JsVal) : Outcome :=
  if !truthy behbble then
    sendResponse o (errorEnvelope (.str (ascii "Invalid Shepard ID")) (.num INVALID_SHEPARD_ID))
  else forwardErr o behbble o

/-- The `/behbble` branch (source lines 135-166). -/
def Farm.onBehbble (backend : Backend) (req : RequestData) (o : Outcome) : Outcome :=
  let urlPath := jsSplit 47 req.url
  let shepardID := elemAt urlPath 2
  let behbbleID := elemAt urlPath 3
  if !truthy shepardID then
    sendResponse o (errorEnvelope (.str (ascii "Invalid Shepard ID")) (.num INVALID_SHEPARD_ID))
  else if !truthy behbbleID then
    sendResponse o (errorEnvelope (.str (ascii "Invalid Behbble ID")) (.num INVALID_BEHBBLE_ID))
  else
    let o := invoke o (.getBehbble shepardID behbbleID)
    match awaitCatch (backend.getBehbble shepardID behbbleID) with
    | .error ex => raise o ex
    | .ok behbble => respondBehbble o behbble

/-- The text of the fallback page. -/
def fallbackPage (name description : JsString) : JsString :=
  ascii "This is a Behbble server!\n\nName: " ++ name ++ ascii "\nDescription: " ++
    description ++ ascii "\n"

/-- The template literal of the fallback page, given the two property reads
    `info.name` and `info.description`. -/
def writePage (o : Outcome) (name description : Except Exn JsVal) : Outcome :=
  match name, description with
  | .ok n, .ok d =>
    match jsToString n, jsToString d with
    | some n, some d => { o with written := o.written ++ [.text (fallbackPage n d)] }
    | _, _ => raise o .typeError
  | _, _ => raise o .typeError

/-- The fallback branch (source lines 167-176): `this.info()` is called without
    `await`, so a returned promise is read as an object that has neither `name`
    nor `description`. -/
def Farm.onFallback (backend : Backend) (o : Outcome) : Outcome :=
  let o := invoke o .info
  match backend.info with
  | .throws e => raise o (.thrown e)
  | .returns info =>
    writePage { o with contentType := ascii "text/plain" }
      (getProp info (ascii "name")) (getProp info (ascii "description"))
  | .resolves _ =>
    writePage { o with contentType := ascii "text/plain" } (.ok .undefined) (.ok .undefined)
  | .rejects _ =>
    writePage { o with contentType := ascii "text/plain" } (.ok .undefined) (.ok .undefined)

/-- The `'request'` handler registered by `init` (source lines 38-177), run on
    the request data that `recieveRequestData` resolved to. -/
def Farm.onRequest (self : Farm) (backend : Backend) (req : RequestData) : Outcome :=
  let o := Outcome.start self
  if req.url = ascii "/info" then Farm.onInfo backend o
  else if req.url = ascii "/status" then Farm.onStatus backend o
  else if req.url = ascii "/call_shepard" ∧ req.method = ascii "POST" then
    Farm.onCallShepard self backend req o
  else if startsWith req.url (ascii "/shepard") then Farm.onShepard backend req o
  else if startsWith req.url (ascii "/behbble") then Farm.onBehbble backend req o
  else Farm.onFallback backend o

/-- The methods as the class itself defines them (source lines 188-213): none
    is `async`, each returns a plain value. -/
def Farm.base : Backend :=
  { info := .returns (.obj [ (ascii "name", .str (ascii "Untitled Farm")),
                             (ascii "description", .str (ascii "A quiet farm...")) ])
    status := .returns (.obj [(ascii "capacity", .num 0)])
    callShepard := fun _ _ => .returns (.obj [(ascii "id", .null)])
    getShepardBehbbles := fun _ => .returns (.arr [])
    getBehbble := fun _ _ => .returns .undefined }

/-! ## Envelope shapes -/

/-- Does `v.k` read as a defined value?  (`JSON.stringify` leaves out a field
    whose value is `undefined`.) -/
def hasProp (v : JsVal) (k : JsString) : Bool :=
  match getProp v k with
  | .ok w => !isUndefined w
  | .error _ => false

/-- The success shape of the response envelope: `success: true` and no `err`. -/
def isSuccessShape (v : JsVal) : Bool :=
  (match getProp v (ascii "success") with
   | .ok (.bool true) => true
   | _ => false) && !hasProp v (ascii "err")

/-- The error shape of the response envelope: `err` and `code`, no `success`. -/
def isErrorShape (v : JsVal) : Bool :=
  hasProp v (ascii "err") && hasProp v (ascii "code") && !hasProp v (ascii "success")

/-- Exactly one of the two envelope shapes. -/
def hasOneShape (v : JsVal) : Bool := isSuccessShape v != isErrorShape v

/-! ## Routing -/

theorem ascii_info : ascii "/info" = [47, 105, 110, 102, 111] := by decide

theorem ascii_status : ascii "/status" = [47, 115, 116, 97, 116, 117, 115] := by decide

theorem ascii_call_shepard :
    ascii "/call_shepard" = [47, 99, 97, 108, 108, 95, 115, 104, 101, 112, 97, 114, 100] := by
  decide

theorem ascii_shepard : ascii "/shepard" = [47, 115, 104, 101, 112, 97, 114, 100] := by decide

theorem ascii_behbble : ascii "/behbble" = [47, 98, 101, 104, 98, 98, 108, 101] := by decide

/-- A POST to `/call_shepard` reaches the query-submission branch. -/
theorem route_call_shepard (self : Farm) (backend : Backend) (req : RequestData)
    (hurl : req.url = ascii "/call_shepard") (hmethod : req.method = ascii "POST") :
    self.onRequest backend req = self.onCallShepard backend req (Outcome.start self) := by
  simp [Farm.onRequest, hurl, hmethod, ascii_info, ascii_status, ascii_call_shepard]

/-- Every url that starts with `/shepard` reaches the Shepard-lookup branch. -/
theorem route_shepard (self : Farm) (backend : Backend) (req : RequestData)
    (hurl : startsWith req.url (ascii "/shepard") = true) :
    self.onRequest backend req = Farm.onShepard backend req (Outcome.start self) := by
  obtain ⟨t, ht⟩ : ascii "/shepard" <+: req.url := List.isPrefixOf_iff_prefix.mp hurl
  unfold Farm.onRequest
  rw [hurl, ← ht]
  simp [ascii_info, ascii_status, ascii_call_shepard, ascii_shepard]

/-- Every url that starts with `/behbble` reaches the Behbble-lookup branch. -/
theorem route_behbble (self : Farm) (backend : Backend) (req : RequestData)
    (hurl : startsWith req.url (ascii "/behbble") = true) :
    self.onRequest backend req = Farm.onBehbble backend req (Outcome.start self) := by
  obtain ⟨t, ht⟩ : ascii "/behbble" <+: req.url := List.isPrefixOf_iff_prefix.mp hurl
  have hs : startsWith req.url (ascii "/shepard") = false := by
    rw [← ht]
    simp [startsWith, ascii_shepard, ascii_behbble, List.isPrefixOf]
  unfold Farm.onRequest
  rw [hurl, hs, ← ht]
  simp [ascii_info, ascii_status, ascii_call_shepard, ascii_behbble]

/-- A value with a truthy property is an object, hence truthy itself. -/
theorem truthy_of_truthy_prop (r e : JsVal) (k : JsString)
    (he : getProp r k = .ok e) (ht : truthy e = true) : truthy r = true := by
  cases r <;> simp [getProp] at he <;> first
    | rfl
    | (subst he; simp [truthy] at ht)

/-! ## The query-submission route: request validation -/

/-- C1 (code defect, evaluated at the failing request): a POST to
    `/call_shepard` that carries no payload is parsed to the body `null`; the
    handler then reads `body.query` on `null`, which raises a `TypeError`: nothing
    is written, no backend operation is called, and the handler's promise
    rejects.  The `NO_QUERY_PROVIDED` envelope is not sent. -/
theorem C1_absent_body_raises (self : Farm) (backend : Backend)
    (jsonParse : JsString → Except Exn JsVal) :
    (recieveRequestData jsonParse (ascii "POST") (ascii "/call_shepard") []).body = .null ∧
    (self.onRequest backend
      (recieveRequestData jsonParse (ascii "POST") (ascii "/call_shepard") [])).written = [] ∧
    (self.onRequest backend
      (recieveRequestData jsonParse (ascii "POST") (ascii "/call_shepard") [])).calls = [] ∧
    (self.onRequest backend
      (recieveRequestData jsonParse (ascii "POST") (ascii "/call_shepard") [])).threw
        = some Exn.typeError := by
  refine ⟨rfl, ?_, ?_, ?_⟩ <;>
    rw [route_call_shepard _ _ _ rfl rfl] <;> rfl

/-- The part of C1 that the code does satisfy: when the body is not `null` (an
    object, or any other JSON value) and has no `query`, the response is the
    `NO_QUERY_PROVIDED` envelope and `callShepard` is not called. -/
theorem no_query_envelope (self : Farm) (backend : Backend) (req : RequestData)
    (hurl : req.url = ascii "/call_shepard") (hmethod : req.method = ascii "POST")
    (hq : getProp req.body (ascii "query") = .ok .undefined) :
    (self.onRequest backend req).written =
        [.json (errorEnvelope (.str (ascii "A Shepard Query could not be found"))
          (.num NO_QUERY_PROVIDED))] ∧
    (self.onRequest backend req).calls = [] ∧
    (self.onRequest backend req).threw = none := by
  rw [route_call_shepard self backend req hurl hmethod]
  simp [Farm.onCallShepard, hq, isUndefined, sendResponse, Outcome.start]

/-! ## Reading results -/

/-- A value one property of which can be read lets every property be read. -/
theorem getProp_ok_of_ok (v a : JsVal) (k k' : JsString) (h : getProp v k = .ok a) :
    ∃ b, getProp v k' = .ok b := by
  cases v <;> first
    | (simp [getProp] at h; done)
    | (unfold getProp; split_ifs <;> exact ⟨_, rfl⟩)

/-- Every property of a truthy value can be read. -/
theorem getProp_ok_of_truthy (v : JsVal) (k : JsString) (h : truthy v = true) :
    ∃ b, getProp v k = .ok b := by
  cases v <;> first
    | (simp [truthy] at h; done)
    | (unfold getProp; split_ifs <;> exact ⟨_, rfl⟩)

/-- A truthy `err` is forwarded with the result's code, or `CUSTOM_ERROR` when
    the code is falsy. -/
theorem forwardErr_truthy (o otherwise : Outcome) (r e c : JsVal)
    (he : getProp r (ascii "err") = .ok e) (ht : truthy e = true)
    (hc : getProp r (ascii "code") = .ok c) :
    forwardErr o r otherwise
      = sendResponse o (errorEnvelope e (orElse c (.num CUSTOM_ERROR))) := by
  simp [forwardErr, he, ht, hc]

/-- A falsy `err` is not forwarded. -/
theorem forwardErr_falsy (o otherwise : Outcome) (r e : JsVal)
    (he : getProp r (ascii "err") = .ok e) (ht : truthy e = false) :
    forwardErr o r otherwise = otherwise := by
  simp [forwardErr, he, ht]

/-- A truthy `shepardResponse` is forwarded as an error or wrapped as a
    success. -/
theorem respondCallShepard_truthy (o : Outcome) (r : JsVal) (h : truthy r = true) :
    respondCallShepard o r = forwardErr o r (shepardSuccess o r) := by
  simp [respondCallShepard, h]

/-- A falsy `shepardResponse` is answered with `INVALID_SHEPARD_QUERY`. -/
theorem respondCallShepard_falsy (o : Outcome) (r : JsVal) (h : truthy r = false) :
    respondCallShepard o r
      = sendResponse o (errorEnvelope (.str (ascii "Invalid Shepard Query"))
          (.num INVALID_SHEPARD_QUERY)) := by
  simp [respondCallShepard, h]

/-- The query-submission branch up to the backend call: a defined query with a
    string form is truncated and passed on, with the flag `!!body.isChoice`. -/
theorem onCallShepard_call (self : Farm) (backend : Backend) (req : RequestData)
    (o : Outcome) (qv : JsVal) (text : JsString)
    (hq : getProp req.body (ascii "query") = .ok qv) (hdef : isUndefined qv = false)
    (htext : jsToString qv = some text) :
    ∃ flag, getProp req.body (ascii "isChoice") = .ok flag ∧
      self.onCallShepard backend req o =
        match awaitCatch (backend.callShepard (jsSlice text self.maxQueryLength)
            (truthy flag)) with
        | .error ex =>
          raise (invoke o (.callShepard (jsSlice text self.maxQueryLength) (truthy flag))) ex
        | .ok r =>
          respondCallShepard
            (invoke o (.callShepard (jsSlice text self.maxQueryLength) (truthy flag))) r := by
  obtain ⟨flag, hflag⟩ := getProp_ok_of_ok req.body qv _ (ascii "isChoice") hq
  exact ⟨flag, hflag, by simp [Farm.onCallShepard, hq, hdef, htext, hflag]⟩

/-! ## The query-submission route: backend failures -/

/-- C2 (code defect, evaluated at failing backends): on a POST to
    `/call_shepard` with the body `{query: "hello"}`,
    * when `callShepard` rejects with the empty string, the `catch` callback
      builds `{err: "", code: 1}`, whose `err` is falsy, so the handler takes it
      for a result and writes the success envelope
      `{success: true, shepard: undefined}`;
    * when `callShepard` rejects with `undefined`, `err.toString()` raises inside
      the `catch` callback: nothing is written and the handler's promise
      rejects. -/
theorem C2_failure_not_reported (self : Farm) :
    (self.onRequest { Farm.base with callShepard := fun _ _ => .rejects (.str []) }
      ⟨ascii "POST", ascii "/call_shepard",
        .obj [(ascii "query", .str (ascii "hello"))]⟩).written
      = [.json (.obj [(ascii "success", .bool true), (ascii "shepard", .undefined)])] ∧
    (self.onRequest { Farm.base with callShepard := fun _ _ => .rejects .undefined }
      ⟨ascii "POST", ascii "/call_shepard",
        .obj [(ascii "query", .str (ascii "hello"))]⟩).written = [] ∧
    (self.onRequest { Farm.base with callShepard := fun _ _ => .rejects .undefined }
      ⟨ascii "POST", ascii "/call_shepard",
        .obj [(ascii "query", .str (ascii "hello"))]⟩).threw = some Exn.typeError := by
  refine ⟨?_, ?_, ?_⟩ <;> rw [route_call_shepard _ _ _ rfl rfl] <;> rfl

/-- The part of C2 that the code does satisfy: when `callShepard` rejects with a
    value whose `toString()` is a non-empty string `s`, the one response is
    `{err: s, code: UNEXPECTED_ERROR}`. -/
theorem rejection_reported (self : Farm) (backend : Backend) (req : RequestData)
    (qv e : JsVal) (text s : JsString)
    (hurl : req.url = ascii "/call_shepard") (hmethod : req.method = ascii "POST")
    (hq : getProp req.body (ascii "query") = .ok qv) (hdef : isUndefined qv = false)
    (htext : jsToString qv = some text)
    (hrej : ∀ q c, backend.callShepard q c = .rejects e)
    (hs : toStringMethod e = some s) (hne : s ≠ []) :
    (self.onRequest backend req).written =
        [.json (errorEnvelope (.str s) (.num UNEXPECTED_ERROR))] ∧
    (self.onRequest backend req).threw = none := by
  rw [route_call_shepard self backend req hurl hmethod]
  obtain ⟨flag, -, hrun⟩ := onCallShepard_call self backend req (Outcome.start self) qv text
    hq hdef htext
  have hs' : truthy (.str s) = true := by cases s <;> simp_all [truthy]
  have hfw := forwardErr_truthy
    (invoke (Outcome.start self) (.callShepard (jsSlice text self.maxQueryLength) (truthy flag)))
    (shepardSuccess
      (invoke (Outcome.start self) (.callShepard (jsSlice text self.maxQueryLength) (truthy flag)))
      (.obj [(ascii "err", .str s), (ascii "code", .num UNEXPECTED_ERROR)]))
    (.obj [(ascii "err", .str s), (ascii "code", .num UNEXPECTED_ERROR)])
    (.str s) (.num UNEXPECTED_ERROR) rfl hs' rfl
  rw [hrun, hrej]
  simp only [awaitCatch, hs]
  rw [respondCallShepard_truthy _ (.obj _) rfl, hfw]
  exact ⟨rfl, rfl⟩

/-! ## The information routes: backend failures -/

/-- C3 (code defect, evaluated at failing backends): the `/info` and `/status`
    branches await the backend without any `catch`.  When `info()` (on `/info`)
    or `status()` (on `/status`) rejects with a reason `e`, nothing is written
    and the handler's promise rejects with `e`: no `UNEXPECTED_ERROR` envelope
    is sent. -/
theorem C3_info_status_failure_propagates (self : Farm) (e : JsVal) :
    (self.onRequest { Farm.base with info := .rejects e }
      ⟨ascii "GET", ascii "/info", .null⟩).written = [] ∧
    (self.onRequest { Farm.base with info := .rejects e }
      ⟨ascii "GET", ascii "/info", .null⟩).threw = some (Exn.thrown e) ∧
    (self.onRequest { Farm.base with status := .rejects e }
      ⟨ascii "GET", ascii "/status", .null⟩).written = [] ∧
    (self.onRequest { Farm.base with status := .rejects e }
      ⟨ascii "GET", ascii "/status", .null⟩).threw = some (Exn.thrown e) := by
  refine ⟨rfl, rfl, rfl, rfl⟩

/-! ## The query-submission route: truncation -/

/-- Responding never adds a backend call. -/
theorem forwardErr_calls (o otherwise : Outcome) (r : JsVal)
    (h : otherwise.calls = o.calls) : (forwardErr o r otherwise).calls = o.calls := by
  unfold forwardErr
  split
  · rfl
  · split
    · split <;> rfl
    · exact h

theorem shepardSuccess_calls (o : Outcome) (r : JsVal) :
    (shepardSuccess o r).calls = o.calls := by
  unfold shepardSuccess
  split
  · rfl
  · split
    · rfl
    · split <;> rfl

theorem respondCallShepard_calls (o : Outcome) (r : JsVal) :
    (respondCallShepard o r).calls = o.calls := by
  unfold respondCallShepard
  split
  · rfl
  · exact forwardErr_calls _ _ _ (shepardSuccess_calls o r)

/-- A farm constructed with a maximum length `m ≥ 1` keeps `m`. -/
theorem constructor_maxQueryLength (settings : Settings) (m : Int)
    (hset : settings.maxQueryLength = some m) (hpos : 1 ≤ m) :
    (Farm.constructor settings).maxQueryLength = m := by
  have : m ≠ 0 := by omega
  simp [Farm.constructor, hset, this]

/-- C4: on a POST to `/call_shepard` whose body carries the string query `q`,
    with a farm configured (through the constructor) with the maximum length
    `m ≥ 1`, `callShepard` is called exactly once and the query it receives is
    the prefix of `q` of length `min |q| m`: of length exactly `m` when `q` is
    longer than `m`, and `q` itself when it is not. -/
theorem C4_query_truncated (self : Farm) (backend : Backend) (req : RequestData)
    (settings : Settings) (q : JsString) (m : Int)
    (hurl : req.url = ascii "/call_shepard") (hmethod : req.method = ascii "POST")
    (hq : getProp req.body (ascii "query") = .ok (.str q))
    (hcfg : self.maxQueryLength = (Farm.constructor settings).maxQueryLength)
    (hset : settings.maxQueryLength = some m) (hpos : 1 ≤ m) :
    ∃ passed isChoice,
      (self.onRequest backend req).calls = [.callShepard passed isChoice] ∧
      passed = q.take (min q.length m.toNat) ∧
      passed <+: q ∧
      ((passed.length : Int) = min (q.length : Int) m) ∧
      ((q.length : Int) > m → (passed.length : Int) = m) ∧
      ((q.length : Int) ≤ m → passed = q) := by
  have hmax : self.maxQueryLength = m := by rw [hcfg, constructor_maxQueryLength settings m hset hpos]
  obtain ⟨flag, -, hrun⟩ := onCallShepard_call self backend req (Outcome.start self) (.str q) q
    hq rfl (by simp [jsToString])
  have hslice : jsSlice q self.maxQueryLength = q.take (min q.length m.toNat) := by
    have : ¬ m < 0 := by omega
    simp [jsSlice, hmax, this, List.take_eq_take, Nat.min_comm]
  refine ⟨q.take (min q.length m.toNat), truthy flag, ?_, rfl, List.take_prefix _ _, ?_, ?_, ?_⟩
  · rw [route_call_shepard self backend req hurl hmethod, hrun, hslice]
    split
    · rfl
    · rw [respondCallShepard_calls]; rfl
  · rw [List.length_take]; omega
  · intro h; rw [List.length_take]; omega
  · intro h
    apply List.take_of_length_le
    omega

/-- C4 at a concrete request: the query `hello` with the maximum length 3 is
    passed as `hel`. -/
theorem C4_query_truncated_witness :
    ∃ passed isChoice,
      ((Farm.constructor ⟨.undefined, some 3⟩).onRequest Farm.base
        ⟨ascii "POST", ascii "/call_shepard",
          .obj [(ascii "query", .str (ascii "hello"))]⟩).calls
        = [.callShepard passed isChoice] ∧
      passed = (ascii "hello").take (min (ascii "hello").length (3 : Int).toNat) ∧
      passed <+: ascii "hello" ∧
      ((passed.length : Int) = min ((ascii "hello").length : Int) 3) ∧
      (((ascii "hello").length : Int) > 3 → (passed.length : Int) = 3) ∧
      (((ascii "hello").length : Int) ≤ 3 → passed = ascii "hello") :=
  C4_query_truncated (Farm.constructor ⟨.undefined, some 3⟩) Farm.base
    ⟨ascii "POST", ascii "/call_shepard", .obj [(ascii "query", .str (ascii "hello"))]⟩
    ⟨.undefined, some 3⟩ (ascii "hello") 3 rfl rfl rfl rfl rfl (by decide)

/-! ## The response envelope -/

@[simp] theorem written_sendResponse (o : Outcome) (j : JsVal) :
    (sendResponse o j).written = o.written ++ [.json j] := rfl

@[simp] theorem written_raise (o : Outcome) (ex : Exn) : (raise o ex).written = o.written := rfl

@[simp] theorem written_invoke (o : Outcome) (c : Call) : (invoke o c).written = o.written := rfl

@[simp] theorem written_start (self : Farm) : (Outcome.start self).written = [] := rfl

theorem isUndefined_of_truthy (v : JsVal) (h : truthy v = true) : isUndefined v = false := by
  cases v <;> simp_all [truthy, isUndefined]

theorem truthy_orElse (c d : JsVal) (hd : truthy d = true) : truthy (orElse c d) = true := by
  unfold orElse
  split <;> assumption

/-- An error envelope with defined `err` and `code` has the error shape only. -/
theorem errorEnvelope_shape (e c : JsVal) (he : isUndefined e = false)
    (hc : isUndefined c = false) :
    isErrorShape (errorEnvelope e c) = true ∧ isSuccessShape (errorEnvelope e c) = false := by
  have h1 : getProp (errorEnvelope e c) (ascii "err") = .ok e := rfl
  have h2 : getProp (errorEnvelope e c) (ascii "code") = .ok c := rfl
  have h3 : getProp (errorEnvelope e c) (ascii "success") = .ok .undefined := rfl
  have h4 : isUndefined .undefined = true := rfl
  simp [isErrorShape, isSuccessShape, hasProp, h1, h2, h3, he, hc, h4]

theorem choices_shape (c : JsVal) :
    isSuccessShape (.obj [(ascii "success", .bool true), (ascii "choices", c)]) = true ∧
    isErrorShape (.obj [(ascii "success", .bool true), (ascii "choices", c)]) = false :=
  ⟨rfl, rfl⟩

theorem shepard_shape (c : JsVal) :
    isSuccessShape (.obj [(ascii "success", .bool true), (ascii "shepard", c)]) = true ∧
    isErrorShape (.obj [(ascii "success", .bool true), (ascii "shepard", c)]) = false :=
  ⟨rfl, rfl⟩

theorem forwardErr_written (o otherwise : Outcome) (r v : JsVal)
    (h : Body.json v ∈ (forwardErr o r otherwise).written) :
    Body.json v ∈ o.written ∨ Body.json v ∈ otherwise.written ∨
      (isErrorShape v = true ∧ isSuccessShape v = false) := by
  unfold forwardErr at h
  split at h
  · exact Or.inl h
  · rename_i err herr
    split at h
    · rename_i ht
      split at h
      · exact Or.inl h
      · rename_i code hcode
        simp only [written_sendResponse, List.mem_append, List.mem_singleton,
          Body.json.injEq] at h
        rcases h with h | h
        · exact Or.inl h
        · subst h
          exact Or.inr (Or.inr (errorEnvelope_shape _ _ (isUndefined_of_truthy _ ht)
            (isUndefined_of_truthy _ (truthy_orElse _ _ rfl))))
    · exact Or.inr (Or.inl h)

theorem shepardSuccess_written (o : Outcome) (r v : JsVal)
    (h : Body.json v ∈ (shepardSuccess o r).written) :
    Body.json v ∈ o.written ∨ (isSuccessShape v = true ∧ isErrorShape v = false) := by
  unfold shepardSuccess at h
  split at h
  · exact Or.inl h
  · split at h
    · simp only [written_sendResponse, List.mem_append, List.mem_singleton,
        Body.json.injEq] at h
      rcases h with h | h
      · exact Or.inl h
      · subst h; exact Or.inr (choices_shape _)
    · split at h
      · exact Or.inl h
      · simp only [written_sendResponse, List.mem_append, List.mem_singleton,
          Body.json.injEq] at h
        rcases h with h | h
        · exact Or.inl h
        · subst h; exact Or.inr (shepard_shape _)

theorem respondCallShepard_written (o : Outcome) (r v : JsVal)
    (h : Body.json v ∈ (respondCallShepard o r).written) :
    Body.json v ∈ o.written ∨ hasOneShape v = true := by
  unfold respondCallShepard at h
  split at h
  · simp only [written_sendResponse, List.mem_append, List.mem_singleton,
      Body.json.injEq] at h
    rcases h with h | h
    · exact Or.inl h
    · subst h
      obtain ⟨h1, h2⟩ := errorEnvelope_shape (.str (ascii "Invalid Shepard Query"))
        (.num INVALID_SHEPARD_QUERY) rfl rfl
      right; simp [hasOneShape, h1, h2]
  · rcases forwardErr_written _ _ _ _ h with h | h | ⟨h1, h2⟩
    · exact Or.inl h
    · rcases shepardSuccess_written _ _ _ h with h | ⟨h1, h2⟩
      · exact Or.inl h
      · right; simp [hasOneShape, h1, h2]
    · right; simp [hasOneShape, h1, h2]

theorem errorEnvelope_oneShape (e c : JsVal) (he : isUndefined e = false)
    (hc : isUndefined c = false) : hasOneShape (errorEnvelope e c) = true := by
  obtain ⟨h1, h2⟩ := errorEnvelope_shape e c he hc
  simp [hasOneShape, h1, h2]

theorem onCallShepard_written (self : Farm) (backend : Backend) (req : RequestData)
    (o : Outcome) (v : JsVal)
    (h : Body.json v ∈ (self.onCallShepard backend req o).written) :
    Body.json v ∈ o.written ∨ hasOneShape v = true := by
  unfold Farm.onCallShepard at h
  split at h
  · exact Or.inl h
  · split at h
    · simp only [written_sendResponse, List.mem_append, List.mem_singleton,
        Body.json.injEq] at h
      rcases h with h | h
      · exact Or.inl h
      · subst h; exact Or.inr (errorEnvelope_oneShape _ _ rfl rfl)
    · split at h
      · exact Or.inl h
      · split at h
        · exact Or.inl h
        · simp only at h
          split at h
          · exact Or.inl h
          · have h' := respondCallShepard_written _ _ _ h
            simpa using h'

theorem respondShepard_written (o : Outcome) (r v : JsVal)
    (h : Body.json v ∈ (respondShepard o r).written) :
    Body.json v ∈ o.written ∨ hasOneShape v = true ∨
      (truthy r = true ∧ v = .obj [(ascii "behbbles", r)]) := by
  unfold respondShepard at h
  split at h
  · simp only [written_sendResponse, List.mem_append, List.mem_singleton,
      Body.json.injEq] at h
    rcases h with h | h
    · exact Or.inl h
    · subst h; exact Or.inr (Or.inl (errorEnvelope_oneShape _ _ rfl rfl))
  · rename_i ht
    rcases forwardErr_written _ _ _ _ h with h | h | ⟨h1, h2⟩
    · exact Or.inl h
    · simp only [written_sendResponse, List.mem_append, List.mem_singleton,
        Body.json.injEq] at h
      rcases h with h | h
      · exact Or.inl h
      · exact Or.inr (Or.inr ⟨by simpa using ht, h⟩)
    · right; left; simp [hasOneShape, h1, h2]

theorem onShepard_written (backend : Backend) (req : RequestData) (o : Outcome) (v : JsVal)
    (h : Body.json v ∈ (Farm.onShepard backend req o).written) :
    Body.json v ∈ o.written ∨ hasOneShape v = true ∨
      ∃ r, truthy r = true ∧ v = .obj [(ascii "behbbles", r)] := by
  unfold Farm.onShepard at h
  simp only at h
  split at h
  · simp only [written_sendResponse, List.mem_append, List.mem_singleton,
      Body.json.injEq] at h
    rcases h with h | h
    · exact Or.inl h
    · subst h; exact Or.inr (Or.inl (errorEnvelope_oneShape _ _ rfl rfl))
  · split at h
    · exact Or.inl h
    · rcases respondShepard_written _ _ _ h with h | h | h
      · exact Or.inl h
      · exact Or.inr (Or.inl h)
      · exact Or.inr (Or.inr ⟨_, h⟩)

theorem respondBehbble_written (o : Outcome) (r v : JsVal)
    (h : Body.json v ∈ (respondBehbble o r).written) :
    Body.json v ∈ o.written ∨ hasOneShape v = true := by
  unfold respondBehbble at h
  split at h
  · simp only [written_sendResponse, List.mem_append, List.mem_singleton,
      Body.json.injEq] at h
    rcases h with h | h
    · exact Or.inl h
    · subst h; exact Or.inr (errorEnvelope_oneShape _ _ rfl rfl)
  · rcases forwardErr_written _ _ _ _ h with h | h | ⟨h1, h2⟩
    · exact Or.inl h
    · exact Or.inl h
    · right; simp [hasOneShape, h1, h2]

theorem onBehbble_written (backend : Backend) (req : RequestData) (o : Outcome) (v : JsVal)
    (h : Body.json v ∈ (Farm.onBehbble backend req o).written) :
    Body.json v ∈ o.written ∨ hasOneShape v = true := by
  unfold Farm.onBehbble at h
  simp only at h
  split at h
  · simp only [written_sendResponse, List.mem_append, List.mem_singleton,
      Body.json.injEq] at h
    rcases h with h | h
    · exact Or.inl h
    · subst h; exact Or.inr (errorEnvelope_oneShape _ _ rfl rfl)
  · split at h
    · simp only [written_sendResponse, List.mem_append, List.mem_singleton,
        Body.json.injEq] at h
      rcases h with h | h
      · exact Or.inl h
      · subst h; exact Or.inr (errorEnvelope_oneShape _ _ rfl rfl)
    · split at h
      · exact Or.inl h
      · have h' := respondBehbble_written _ _ _ h
        simpa using h'

theorem writePage_written (o : Outcome) (n d : Except Exn JsVal) (v : JsVal)
    (h : Body.json v ∈ (writePage o n d).written) : Body.json v ∈ o.written := by
  unfold writePage at h
  split at h
  · split at h
    · simpa using h
    · exact h
  · exact h

theorem onFallback_written (backend : Backend) (o : Outcome) (v : JsVal)
    (h : Body.json v ∈ (Farm.onFallback backend o).written) : Body.json v ∈ o.written := by
  unfold Farm.onFallback at h
  simp only at h
  split at h
  · exact h
  all_goals
    have h' := writePage_written _ _ _ _ h
    simpa using h'

/-- C5 (as amended): on every route other than `/info` and `/status`, whatever
    the backend does, a JSON response written by the dispatcher has exactly one
    of the two envelope shapes (`success: true` without `err`, or `err` and
    `code` without `success`), with one exception: the successful `/shepard`
    response, which is the bare payload `{behbbles: result}` for a truthy
    `result`. -/
theorem C5_envelope_shapes (self : Farm) (backend : Backend) (req : RequestData) (v : JsVal)
    (hinfo : req.url ≠ ascii "/info") (hstatus : req.url ≠ ascii "/status")
    (hv : Body.json v ∈ (self.onRequest backend req).written) :
    hasOneShape v = true ∨
      (startsWith req.url (ascii "/shepard") = true ∧
        ∃ r, truthy r = true ∧ v = .obj [(ascii "behbbles", r)]) := by
  unfold Farm.onRequest at hv
  simp only [hinfo, hstatus, if_false] at hv
  split at hv
  · rcases onCallShepard_written _ _ _ _ _ hv with h | h
    · simp at h
    · exact Or.inl h
  · split at hv
    · rename_i hs
      rcases onShepard_written _ _ _ _ hv with h | h | h
      · simp at h
      · exact Or.inl h
      · exact Or.inr ⟨hs, h⟩
    · split at hv
      · rcases onBehbble_written _ _ _ _ hv with h | h
        · simp at h
        · exact Or.inl h
      · have := onFallback_written _ _ _ hv
        simp at this

/-- C5 (as amended) at a concrete request: the `NO_QUERY_PROVIDED` envelope
    written for a POST to `/call_shepard` with the body `{}` has exactly one
    shape. -/
theorem C5_envelope_shapes_witness :
    hasOneShape (errorEnvelope (.str (ascii "A Shepard Query could not be found"))
        (.num NO_QUERY_PROVIDED)) = true ∨
      (startsWith (ascii "/call_shepard") (ascii "/shepard") = true ∧
        ∃ r, truthy r = true ∧
          errorEnvelope (.str (ascii "A Shepard Query could not be found"))
            (.num NO_QUERY_PROVIDED) = .obj [(ascii "behbbles", r)]) :=
  C5_envelope_shapes (Farm.constructor ⟨.undefined, none⟩) Farm.base
    ⟨ascii "POST", ascii "/call_shepard", .obj []⟩
    (errorEnvelope (.str (ascii "A Shepard Query could not be found")) (.num NO_QUERY_PROVIDED))
    (by decide) (by decide) (List.Mem.head _)

/-- C5 (counterexample): the `/info` response of a farm with the class's own
    `info()` is written as JSON and has neither envelope shape: it carries no
    `success` and no `err`. -/
theorem C5_info_response_has_neither_shape :
    ((Farm.constructor ⟨.undefined, none⟩).onRequest Farm.base
        ⟨ascii "GET", ascii "/info", .null⟩).written
      = [.json (.obj [ (ascii "is_farm", .bool true),
                       (ascii "name", .str (ascii "Untitled Farm")),
                       (ascii "description", .str (ascii "A quiet farm...")),
                       (ascii "version", .undefined) ])] ∧
    isSuccessShape (.obj [ (ascii "is_farm", .bool true),
                           (ascii "name", .str (ascii "Untitled Farm")),
                           (ascii "description", .str (ascii "A quiet farm...")),
                           (ascii "version", .undefined) ]) = false ∧
    isErrorShape (.obj [ (ascii "is_farm", .bool true),
                         (ascii "name", .str (ascii "Untitled Farm")),
                         (ascii "description", .str (ascii "A quiet farm...")),
                         (ascii "version", .undefined) ]) = false :=
  ⟨rfl, rfl, rfl⟩

/-! ## Path validation -/

/-- A missing or empty path segment is falsy. -/
theorem elemAt_falsy (parts : List JsString) (i : Nat)
    (h : parts[i]? = none ∨ parts[i]? = some []) : truthy (elemAt parts i) = false := by
  rcases h with h | h <;> simp [elemAt, h, truthy]

/-- A present, non-empty path segment is truthy. -/
theorem elemAt_truthy (parts : List JsString) (i : Nat) (s : JsString)
    (h : parts[i]? = some s) (hs : s ≠ []) : truthy (elemAt parts i) = true := by
  cases s with
  | nil => exact absurd rfl hs
  | cons c cs => simp [elemAt, h, truthy]

/-- C6: for every request whose url starts with `/shepard` and whose second
    `/`-separated segment (`url.split('/')[2]`) is missing or empty, whatever
    the method, the body and the backend, the one response is
    `{err: "Invalid Shepard ID", code: INVALID_SHEPARD_ID}` with
    `INVALID_SHEPARD_ID = 2`, and no backend operation (so in particular not
    `getShepardBehbbles`) is called. -/
theorem C6_missing_shepard_id (self : Farm) (backend : Backend) (req : RequestData)
    (hurl : startsWith req.url (ascii "/shepard") = true)
    (hseg : (jsSplit 47 req.url)[2]? = none ∨ (jsSplit 47 req.url)[2]? = some []) :
    (self.onRequest backend req).written
      = [.json (.obj [(ascii "err", .str (ascii "Invalid Shepard ID")),
                      (ascii "code", .num 2)])] ∧
    (self.onRequest backend req).calls = [] ∧
    (self.onRequest backend req).threw = none := by
  rw [route_shepard self backend req hurl]
  simp [Farm.onShepard, elemAt_falsy _ _ hseg, sendResponse, Outcome.start, errorEnvelope,
    INVALID_SHEPARD_ID]

/-- C6 at the two urls of the specification: `/shepard/` (empty segment) and
    `/shepard` (no segment). -/
theorem C6_missing_shepard_id_witness :
    ((Farm.constructor ⟨.undefined, none⟩).onRequest Farm.base
        ⟨ascii "GET", ascii "/shepard/", .null⟩).written
      = [.json (.obj [(ascii "err", .str (ascii "Invalid Shepard ID")),
                      (ascii "code", .num 2)])] ∧
    ((Farm.constructor ⟨.undefined, none⟩).onRequest Farm.base
        ⟨ascii "GET", ascii "/shepard", .null⟩).written
      = [.json (.obj [(ascii "err", .str (ascii "Invalid Shepard ID")),
                      (ascii "code", .num 2)])] :=
  ⟨(C6_missing_shepard_id (Farm.constructor ⟨.undefined, none⟩) Farm.base
      ⟨ascii "GET", ascii "/shepard/", .null⟩ (by decide) (Or.inr (by decide))).1,
   (C6_missing_shepard_id (Farm.constructor ⟨.undefined, none⟩) Farm.base
      ⟨ascii "GET", ascii "/shepard", .null⟩ (by decide) (Or.inl (by decide))).1⟩

/-- C7: for every request whose url starts with `/behbble`, whatever the method,
    the body and the backend:
    * if the second segment (the Shepard ID) is missing or empty, the one
      response is `{err: "Invalid Shepard ID", code: 2}`, whatever the third
      segment is;
    * if the Shepard ID is present and non-empty and the third segment (the
      Behbble ID) is missing or empty, the one response is
      `{err: "Invalid Behbble ID", code: 4}`;
    in both cases no backend operation (so in particular not `getBehbble`) is
    called. -/
theorem C7_missing_behbble_ids (self : Farm) (backend : Backend) (req : RequestData)
    (hurl : startsWith req.url (ascii "/behbble") = true) :
    (((jsSplit 47 req.url)[2]? = none ∨ (jsSplit 47 req.url)[2]? = some []) →
      (self.onRequest backend req).written
        = [.json (.obj [(ascii "err", .str (ascii "Invalid Shepard ID")),
                        (ascii "code", .num 2)])] ∧
      (self.onRequest backend req).calls = [] ∧
      (self.onRequest backend req).threw = none) ∧
    (∀ shepardID : JsString, (jsSplit 47 req.url)[2]? = some shepardID → shepardID ≠ [] →
      ((jsSplit 47 req.url)[3]? = none ∨ (jsSplit 47 req.url)[3]? = some []) →
      (self.onRequest backend req).written
        = [.json (.obj [(ascii "err", .str (ascii "Invalid Behbble ID")),
                        (ascii "code", .num 4)])] ∧
      (self.onRequest backend req).calls = [] ∧
      (self.onRequest backend req).threw = none) := by
  rw [route_behbble self backend req hurl]
  constructor
  · intro hseg
    simp [Farm.onBehbble, elemAt_falsy _ _ hseg, sendResponse, Outcome.start, errorEnvelope,
      INVALID_SHEPARD_ID]
  · intro shepardID h2 hne h3
    simp [Farm.onBehbble, elemAt_truthy _ _ _ h2 hne, elemAt_falsy _ _ h3, sendResponse,
      Outcome.start, errorEnvelope, INVALID_BEHBBLE_ID]

/-- C7 at the two urls of the specification: `/behbble` alone is answered with
    `INVALID_SHEPARD_ID`, `/behbble/abc` with `INVALID_BEHBBLE_ID`. -/
theorem C7_missing_behbble_ids_witness :
    ((Farm.constructor ⟨.undefined, none⟩).onRequest Farm.base
        ⟨ascii "GET", ascii "/behbble", .null⟩).written
      = [.json (.obj [(ascii "err", .str (ascii "Invalid Shepard ID")),
                      (ascii "code", .num 2)])] ∧
    ((Farm.constructor ⟨.undefined, none⟩).onRequest Farm.base
        ⟨ascii "GET", ascii "/behbble/abc", .null⟩).written
      = [.json (.obj [(ascii "err", .str (ascii "Invalid Behbble ID")),
                      (ascii "code", .num 4)])] :=
  ⟨((C7_missing_behbble_ids (Farm.constructor ⟨.undefined, none⟩) Farm.base
      ⟨ascii "GET", ascii "/behbble", .null⟩ (by decide)).1 (Or.inl (by decide))).1,
   ((C7_missing_behbble_ids (Farm.constructor ⟨.undefined, none⟩) Farm.base
      ⟨ascii "GET", ascii "/behbble/abc", .null⟩ (by decide)).2 (ascii "abc") (by decide)
      (by decide) (Or.inl (by decide))).1⟩

/-! ## Backend results -/

/-- The query-submission branch when `callShepard` resolves to `r`. -/
theorem onCallShepard_resolved (self : Farm) (backend : Backend) (req : RequestData)
    (o : Outcome) (qv r : JsVal) (text : JsString)
    (hq : getProp req.body (ascii "query") = .ok qv) (hdef : isUndefined qv = false)
    (htext : jsToString qv = some text)
    (hres : ∀ q c, backend.callShepard q c = .resolves r) :
    ∃ c, self.onCallShepard backend req o = respondCallShepard (invoke o c) r := by
  obtain ⟨flag, -, hrun⟩ := onCallShepard_call self backend req o qv text hq hdef htext
  exact ⟨_, by rw [hrun, hres]; rfl⟩

/-- The Shepard-lookup branch when `getShepardBehbbles` resolves to `r`. -/
theorem onShepard_resolved (backend : Backend) (req : RequestData) (o : Outcome) (r : JsVal)
    (hid : truthy (elemAt (jsSplit 47 req.url) 2) = true)
    (hres : backend.getShepardBehbbles (elemAt (jsSplit 47 req.url) 2) = .resolves r) :
    Farm.onShepard backend req o
      = respondShepard (invoke o (.getShepardBehbbles (elemAt (jsSplit 47 req.url) 2))) r := by
  simp [Farm.onShepard, hid, hres, awaitCatch]

/-- The Behbble-lookup branch when `getBehbble` resolves to `r`. -/
theorem onBehbble_resolved (backend : Backend) (req : RequestData) (o : Outcome) (r : JsVal)
    (hs : truthy (elemAt (jsSplit 47 req.url) 2) = true)
    (hb : truthy (elemAt (jsSplit 47 req.url) 3) = true)
    (hres : backend.getBehbble (elemAt (jsSplit 47 req.url) 2)
      (elemAt (jsSplit 47 req.url) 3) = .resolves r) :
    Farm.onBehbble backend req o
      = respondBehbble (invoke o (.getBehbble (elemAt (jsSplit 47 req.url) 2)
          (elemAt (jsSplit 47 req.url) 3))) r := by
  simp [Farm.onBehbble, hs, hb, hres, awaitCatch]

/-- C8 (as amended): for each of `callShepard`, `getShepardBehbbles` and
    `getBehbble`, when the operation resolves to a result `r` whose `err` is
    truthy, the one response is exactly `{err: r.err, code: c}`, where `c` is
    `r.code` when that is truthy and `CUSTOM_ERROR = 8` when `r.code` is absent or
    falsy. -/
theorem C8_err_forwarded (self : Farm) (backend : Backend) (r e c : JsVal)
    (he : getProp r (ascii "err") = .ok e) (ht : truthy e = true)
    (hc : getProp r (ascii "code") = .ok c) :
    (∀ (req : RequestData) (qv : JsVal) (text : JsString),
      req.url = ascii "/call_shepard" → req.method = ascii "POST" →
      getProp req.body (ascii "query") = .ok qv → isUndefined qv = false →
      jsToString qv = some text →
      (∀ q b, backend.callShepard q b = .resolves r) →
      (self.onRequest backend req).written
        = [.json (.obj [(ascii "err", e),
            (ascii "code", if truthy c = true then c else .num 8)])]) ∧
    (∀ req : RequestData, startsWith req.url (ascii "/shepard") = true →
      truthy (elemAt (jsSplit 47 req.url) 2) = true →
      backend.getShepardBehbbles (elemAt (jsSplit 47 req.url) 2) = .resolves r →
      (self.onRequest backend req).written
        = [.json (.obj [(ascii "err", e),
            (ascii "code", if truthy c = true then c else .num 8)])]) ∧
    (∀ req : RequestData, startsWith req.url (ascii "/behbble") = true →
      truthy (elemAt (jsSplit 47 req.url) 2) = true →
      truthy (elemAt (jsSplit 47 req.url) 3) = true →
      backend.getBehbble (elemAt (jsSplit 47 req.url) 2) (elemAt (jsSplit 47 req.url) 3)
        = .resolves r →
      (self.onRequest backend req).written
        = [.json (.obj [(ascii "err", e),
            (ascii "code", if truthy c = true then c else .num 8)])]) := by
  have hr : truthy r = true := truthy_of_truthy_prop r e _ he ht
  refine ⟨?_, ?_, ?_⟩
  · intro req qv text hurl hmethod hq hdef htext hres
    obtain ⟨call, hrun⟩ := onCallShepard_resolved self backend req (Outcome.start self) qv r
      text hq hdef htext hres
    rw [route_call_shepard self backend req hurl hmethod, hrun,
      respondCallShepard_truthy _ _ hr, forwardErr_truthy _ _ r e c he ht hc]
    rfl
  · intro req hurl hid hres
    rw [route_shepard self backend req hurl, onShepard_resolved backend req _ r hid hres]
    simp only [respondShepard, hr, Bool.not_true, Bool.false_eq_true, if_false]
    rw [forwardErr_truthy _ _ r e c he ht hc]
    rfl
  · intro req hurl hs hb hres
    rw [route_behbble self backend req hurl, onBehbble_resolved backend req _ r hs hb hres]
    simp only [respondBehbble, hr, Bool.not_true, Bool.false_eq_true, if_false]
    rw [forwardErr_truthy _ _ r e c he ht hc]
    rfl

/-- C8 (as amended) at a concrete backend: `callShepard` resolves to
    `{err: "boom", code: 6}` and the response is `{err: "boom", code: 6}`. -/
theorem C8_err_forwarded_witness :
    ((Farm.constructor ⟨.undefined, none⟩).onRequest
        { Farm.base with callShepard := fun _ _ =>
            CallResult.resolves (.obj [(ascii "err", .str (ascii "boom")), (ascii "code", .num 6)]) }
        ⟨ascii "POST", ascii "/call_shepard",
          .obj [(ascii "query", .str (ascii "hello"))]⟩).written
      = [.json (.obj [(ascii "err", .str (ascii "boom")), (ascii "code", .num 6)])] :=
  (C8_err_forwarded (Farm.constructor ⟨.undefined, none⟩)
    { Farm.base with callShepard := fun _ _ =>
        CallResult.resolves (.obj [(ascii "err", .str (ascii "boom")), (ascii "code", .num 6)]) }
    (.obj [(ascii "err", .str (ascii "boom")), (ascii "code", .num 6)])
    (.str (ascii "boom")) (.num 6) rfl rfl rfl).1
    ⟨ascii "POST", ascii "/call_shepard", .obj [(ascii "query", .str (ascii "hello"))]⟩
    (.str (ascii "hello")) (ascii "hello") rfl rfl rfl rfl rfl (fun _ _ => rfl)

/-- C8 (counterexample): on a POST to `/call_shepard` with the body
    `{query: "hello"}`,
    * when `callShepard` resolves to `{err: "boom", code: 0}`, a result that
      carries `err` and specifies its own code `0`, the response carries the code
      `8`, not the result's own code;
    * when `callShepard` resolves to `{err: "", code: 6}`, a result that carries
      an (empty) `err`, the response is the success envelope
      `{success: true, shepard: undefined}`, not `{err: "", code: 6}`. -/
theorem C8_falsy_code_replaced :
    ((Farm.constructor ⟨.undefined, none⟩).onRequest
        { Farm.base with callShepard := fun _ _ =>
            CallResult.resolves (.obj [(ascii "err", .str (ascii "boom")), (ascii "code", .num 0)]) }
        ⟨ascii "POST", ascii "/call_shepard",
          .obj [(ascii "query", .str (ascii "hello"))]⟩).written
      = [.json (.obj [(ascii "err", .str (ascii "boom")), (ascii "code", .num 8)])] ∧
    [Body.json (.obj [(ascii "err", .str (ascii "boom")), (ascii "code", .num 8)])]
      ≠ [.json (.obj [(ascii "err", .str (ascii "boom")), (ascii "code", .num 0)])] ∧
    ((Farm.constructor ⟨.undefined, none⟩).onRequest
        { Farm.base with callShepard := fun _ _ =>
            CallResult.resolves (.obj [(ascii "err", .str []), (ascii "code", .num 6)]) }
        ⟨ascii "POST", ascii "/call_shepard",
          .obj [(ascii "query", .str (ascii "hello"))]⟩).written
      = [.json (.obj [(ascii "success", .bool true), (ascii "shepard", .undefined)])] ∧
    [Body.json (.obj [(ascii "success", .bool true), (ascii "shepard", .undefined)])]
      ≠ [.json (.obj [(ascii "err", .str []), (ascii "code", .num 6)])] := by
  refine ⟨rfl, ?_, rfl, ?_⟩
  · simp
  · simp [ascii]

/-- C9 (as amended): for every request to `/shepard/{id}` with a non-empty id,
    when `getShepardBehbbles` resolves to `r`:
    * if `r` is falsy (`null`, `undefined`, `false`, `0`, the empty string), the
      one response is `{err: "Invalid Shepard ID", code: 2}`;
    * if `r` is truthy and its `err` is absent or falsy, the one response is
      `{behbbles: r}`;
    * the response is `{behbbles: r}` only in that second case.
    An empty list is truthy, so it is answered by the second case. -/
theorem C9_shepard_result (self : Farm) (backend : Backend) (req : RequestData)
    (id : JsString) (r : JsVal)
    (hurl : startsWith req.url (ascii "/shepard") = true)
    (hseg : (jsSplit 47 req.url)[2]? = some id) (hid : id ≠ [])
    (hres : backend.getShepardBehbbles (.str id) = .resolves r) :
    (self.onRequest backend req).calls = [.getShepardBehbbles (.str id)] ∧
    (truthy r = false →
      (self.onRequest backend req).written
        = [.json (.obj [(ascii "err", .str (ascii "Invalid Shepard ID")),
                        (ascii "code", .num 2)])]) ∧
    (truthy r = true → ∀ e, getProp r (ascii "err") = .ok e → truthy e = false →
      (self.onRequest backend req).written = [.json (.obj [(ascii "behbbles", r)])]) ∧
    ((self.onRequest backend req).written = [.json (.obj [(ascii "behbbles", r)])] →
      truthy r = true ∧ ∃ e, getProp r (ascii "err") = .ok e ∧ truthy e = false) := by
  have hel : elemAt (jsSplit 47 req.url) 2 = .str id := by simp [elemAt, hseg]
  have ht : truthy (elemAt (jsSplit 47 req.url) 2) = true := elemAt_truthy _ _ id hseg hid
  have hrun := onShepard_resolved backend req (Outcome.start self) r ht (by rw [hel]; exact hres)
  rw [route_shepard self backend req hurl, hrun, hel]
  refine ⟨?_, ?_, ?_, ?_⟩
  · unfold respondShepard
    split
    · rfl
    · exact forwardErr_calls _ _ _ rfl
  · intro hf
    simp [respondShepard, hf, sendResponse, invoke, Outcome.start, errorEnvelope,
      INVALID_SHEPARD_ID]
  · intro htr e he hfe
    simp only [respondShepard, htr, Bool.not_true, Bool.false_eq_true, if_false]
    rw [forwardErr_falsy _ _ r e he hfe]
    rfl
  · intro hw
    cases htr : truthy r with
    | false =>
      simp [respondShepard, htr, sendResponse, invoke, Outcome.start, errorEnvelope] at hw
    | true =>
      refine ⟨rfl, ?_⟩
      obtain ⟨e, he⟩ := getProp_ok_of_truthy r (ascii "err") htr
      refine ⟨e, he, ?_⟩
      cases hte : truthy e with
      | false => rfl
      | true =>
        obtain ⟨c, hc⟩ := getProp_ok_of_truthy r (ascii "code") htr
        simp only [respondShepard, htr, Bool.not_true, Bool.false_eq_true, if_false] at hw
        rw [forwardErr_truthy _ _ r e c he hte hc] at hw
        simp [sendResponse, invoke, Outcome.start, errorEnvelope] at hw

/-- C9 (as amended) at a concrete backend: on `/shepard/abc`, the list
    `["b1"]` is answered with `{behbbles: ["b1"]}`. -/
theorem C9_shepard_result_witness :
    ((Farm.constructor ⟨.undefined, none⟩).onRequest
        { Farm.base with getShepardBehbbles := fun _ =>
            CallResult.resolves (.arr [.str (ascii "b1")]) }
        ⟨ascii "GET", ascii "/shepard/abc", .null⟩).written
      = [.json (.obj [(ascii "behbbles", .arr [.str (ascii "b1")])])] :=
  (C9_shepard_result (Farm.constructor ⟨.undefined, none⟩)
    { Farm.base with getShepardBehbbles := fun _ =>
        CallResult.resolves (.arr [.str (ascii "b1")]) }
    ⟨ascii "GET", ascii "/shepard/abc", .null⟩ (ascii "abc") (.arr [.str (ascii "b1")])
    (by decide) (by decide) (by decide) rfl).2.2.1 rfl .undefined rfl rfl

/-- C9 (counterexample): on `/shepard/abc`, when `getShepardBehbbles` resolves to
    the empty list, the response is `{behbbles: []}`: an empty list is truthy, so
    the `INVALID_SHEPARD_ID` envelope is not sent. -/
theorem C9_empty_list_is_wrapped :
    ((Farm.constructor ⟨.undefined, none⟩).onRequest
        { Farm.base with getShepardBehbbles := fun _ => CallResult.resolves (.arr []) }
        ⟨ascii "GET", ascii "/shepard/abc", .null⟩).written
      = [.json (.obj [(ascii "behbbles", .arr [])])] ∧
    [Body.json (.obj [(ascii "behbbles", .arr [])])]
      ≠ [.json (.obj [(ascii "err", .str (ascii "Invalid Shepard ID")),
                      (ascii "code", .num 2)])] := by
  refine ⟨rfl, ?_⟩
  simp

/-- A JSON body written by the query-submission branch never carries both
    `choices` and `shepard`. -/
theorem onCallShepard_not_mixed (self : Farm) (backend : Backend) (req : RequestData)
    (o : Outcome) (v : JsVal)
    (h : Body.json v ∈ (self.onCallShepard backend req o).written) :
    Body.json v ∈ o.written ∨
      ¬ (hasProp v (ascii "choices") = true ∧ hasProp v (ascii "shepard") = true) := by
  have herr : ∀ e c : JsVal, hasProp (errorEnvelope e c) (ascii "choices") = false :=
    fun _ _ => rfl
  have hch : ∀ c : JsVal,
      hasProp (.obj [(ascii "success", .bool true), (ascii "choices", c)]) (ascii "shepard")
        = false := fun _ => rfl
  have hsh : ∀ c : JsVal,
      hasProp (.obj [(ascii "success", .bool true), (ascii "shepard", c)]) (ascii "choices")
        = false := fun _ => rfl
  unfold Farm.onCallShepard at h
  split at h
  · exact Or.inl h
  · split at h
    · simp only [written_sendResponse, List.mem_append, List.mem_singleton,
        Body.json.injEq] at h
      rcases h with h | h
      · exact Or.inl h
      · subst h; right; simp [herr]
    · split at h
      · exact Or.inl h
      · split at h
        · exact Or.inl h
        · simp only at h
          split at h
          · exact Or.inl h
          · unfold respondCallShepard at h
            split at h
            · simp only [written_sendResponse, written_invoke, List.mem_append,
                List.mem_singleton, Body.json.injEq] at h
              rcases h with h | h
              · exact Or.inl h
              · subst h; right; simp [herr]
            · unfold forwardErr at h
              split at h
              · exact Or.inl h
              · split at h
                · split at h
                  · exact Or.inl h
                  · simp only [written_sendResponse, written_invoke, List.mem_append,
                      List.mem_singleton, Body.json.injEq] at h
                    rcases h with h | h
                    · exact Or.inl h
                    · subst h; right; simp [herr]
                · unfold shepardSuccess at h
                  split at h
                  · exact Or.inl h
                  · split at h
                    · simp only [written_sendResponse, written_invoke, List.mem_append,
                        List.mem_singleton, Body.json.injEq] at h
                      rcases h with h | h
                      · exact Or.inl h
                      · subst h; right; simp [hch]
                    · split at h
                      · exact Or.inl h
                      · simp only [written_sendResponse, written_invoke, List.mem_append,
                          List.mem_singleton, Body.json.injEq] at h
                        rcases h with h | h
                        · exact Or.inl h
                        · subst h; right; simp [hsh]

/-- C10: on a POST to `/call_shepard` whose body carries a query (a defined
    `query` that has a string form), when `callShepard` resolves to `r`:
    * if `r` is falsy, the one response is
      `{err: "Invalid Shepard Query", code: 3}`;
    * if `r` is truthy, has no `err`, and `r.choices` is defined, the one
      response is exactly `{success: true, choices: r.choices}`;
    * if `r` is truthy, has no `err`, and `r.choices` is not defined, the one
      response is exactly `{success: true, shepard: r.id}`;
    * no response carries both `choices` and `shepard`. -/
theorem C10_call_shepard_result (self : Farm) (backend : Backend) (req : RequestData)
    (qv r : JsVal) (text : JsString)
    (hurl : req.url = ascii "/call_shepard") (hmethod : req.method = ascii "POST")
    (hq : getProp req.body (ascii "query") = .ok qv) (hdef : isUndefined qv = false)
    (htext : jsToString qv = some text)
    (hres : ∀ q c, backend.callShepard q c = .resolves r) :
    (truthy r = false →
      (self.onRequest backend req).written
        = [.json (.obj [(ascii "err", .str (ascii "Invalid Shepard Query")),
                        (ascii "code", .num 3)])]) ∧
    (truthy r = true → getProp r (ascii "err") = .ok .undefined →
      ∀ choices, getProp r (ascii "choices") = .ok choices → isUndefined choices = false →
      (self.onRequest backend req).written
        = [.json (.obj [(ascii "success", .bool true), (ascii "choices", choices)])]) ∧
    (truthy r = true → getProp r (ascii "err") = .ok .undefined →
      getProp r (ascii "choices") = .ok .undefined →
      ∀ id, getProp r (ascii "id") = .ok id →
      (self.onRequest backend req).written
        = [.json (.obj [(ascii "success", .bool true), (ascii "shepard", id)])]) ∧
    (∀ v, Body.json v ∈ (self.onRequest backend req).written →
      ¬ (hasProp v (ascii "choices") = true ∧ hasProp v (ascii "shepard") = true)) := by
  obtain ⟨call, hrun⟩ := onCallShepard_resolved self backend req (Outcome.start self) qv r
    text hq hdef htext hres
  rw [route_call_shepard self backend req hurl hmethod]
  refine ⟨?_, ?_, ?_, ?_⟩
  · intro hf
    rw [hrun, respondCallShepard_falsy _ _ hf]
    rfl
  · intro htr he choices hch hdefc
    rw [hrun, respondCallShepard_truthy _ _ htr, forwardErr_falsy _ _ r .undefined he rfl]
    simp [shepardSuccess, hch, hdefc, sendResponse, invoke, Outcome.start]
  · intro htr he hch id hid
    have hu : isUndefined .undefined = true := rfl
    rw [hrun, respondCallShepard_truthy _ _ htr, forwardErr_falsy _ _ r .undefined he rfl]
    simp [shepardSuccess, hch, hid, hu, sendResponse, invoke, Outcome.start]
  · intro v hv
    rcases onCallShepard_not_mixed self backend req _ v hv with h | h
    · simp at h
    · exact h

/-- C10 at a concrete backend: `callShepard` resolves to `{id: "s1"}` and the
    response is `{success: true, shepard: "s1"}`. -/
theorem C10_call_shepard_result_witness :
    ((Farm.constructor ⟨.undefined, none⟩).onRequest
        { Farm.base with callShepard := fun _ _ =>
            CallResult.resolves (.obj [(ascii "id", .str (ascii "s1"))]) }
        ⟨ascii "POST", ascii "/call_shepard",
          .obj [(ascii "query", .str (ascii "hello"))]⟩).written
      = [.json (.obj [(ascii "success", .bool true), (ascii "shepard", .str (ascii "s1"))])] :=
  (C10_call_shepard_result (Farm.constructor ⟨.undefined, none⟩)
    { Farm.base with callShepard := fun _ _ =>
        CallResult.resolves (.obj [(ascii "id", .str (ascii "s1"))]) }
    ⟨ascii "POST", ascii "/call_shepard", .obj [(ascii "query", .str (ascii "hello"))]⟩
    (.str (ascii "hello")) (.obj [(ascii "id", .str (ascii "s1"))]) (ascii "hello")
    rfl rfl rfl rfl rfl (fun _ _ => rfl)).2.2.1 rfl rfl rfl (.str (ascii "s1")) rfl

/-! ## Object spread -/

theorem lookupField_filter_ne (k k' : JsString) (fs : List (JsString × JsVal)) :
    lookupField k (fs.filter (fun p => p.1 != k'))
      = if k' = k then none else lookupField k fs := by
  induction fs with
  | nil => simp [lookupField]
  | cons p rest ih =>
    obtain ⟨k1, v1⟩ := p
    by_cases h1 : k1 = k'
    · subst h1
      simp only [List.filter, bne_self_eq_false]
      rw [ih]
      by_cases h : k1 = k
      · simp [h]
      · simp only [h, if_false, lookupField]
        cases lookupField k rest <;> rfl
    · have hb : (k1 != k') = true := by simpa using h1
      simp only [List.filter, hb, lookupField]
      rw [ih]
      by_cases h : k' = k
      · subst h; simp [h1]
      · simp [h]

theorem lookupField_setField (k k' : JsString) (v : JsVal) (fs : List (JsString × JsVal)) :
    lookupField k (setField k' v fs) = if k' = k then some v else lookupField k fs := by
  induction fs with
  | nil => simp [setField, lookupField]
  | cons p rest ih =>
    obtain ⟨k1, v1⟩ := p
    by_cases h1 : k1 = k'
    · subst h1
      simp only [setField, if_true, lookupField]
      rw [lookupField_filter_ne]
      by_cases h : k1 = k
      · simp [h]
      · simp [h]
    · simp only [setField, h1, if_false, lookupField]
      rw [ih]
      by_cases h : k' = k
      · simp [h]
      · simp [h]

theorem lookupField_foldl (k : JsString) (src base : List (JsString × JsVal)) :
    lookupField k (src.foldl (fun acc p => setField p.1 p.2 acc) base)
      = match lookupField k src with
        | some v => some v
        | none => lookupField k base := by
  induction src generalizing base with
  | nil => simp [lookupField]
  | cons p rest ih =>
    obtain ⟨k1, v1⟩ := p
    simp only [List.foldl_cons, lookupField]
    rw [ih, lookupField_setField]
    cases lookupField k rest with
    | some w => rfl
    | none =>
      by_cases h : k1 = k
      · simp [h]
      · simp [h]

/-- Reading a key of `{ ...base, ...v }`: the value that `v` supplies, and the
    value of `base` when `v` supplies none. -/
theorem lookupField_spreadInto (k : JsString) (base : List (JsString × JsVal)) (v : JsVal) :
    lookupField k (spreadInto base v)
      = match lookupField k (ownEnumerable v) with
        | some w => some w
        | none => lookupField k base :=
  lookupField_foldl k (ownEnumerable v) base

/-! ## What a branch leaves unchanged -/

/-- Forwarding an error keeps the tracked status and the content type, and
    writes at most one body. -/
theorem forwardErr_frame (o otherwise : Outcome) (r : JsVal)
    (h : otherwise.lastStatus = o.lastStatus ∧ otherwise.contentType = o.contentType ∧
      (otherwise.written = o.written ∨ ∃ b, otherwise.written = o.written ++ [b])) :
    (forwardErr o r otherwise).lastStatus = o.lastStatus ∧
    (forwardErr o r otherwise).contentType = o.contentType ∧
    ((forwardErr o r otherwise).written = o.written ∨
      ∃ b, (forwardErr o r otherwise).written = o.written ++ [b]) := by
  unfold forwardErr
  split
  · exact ⟨rfl, rfl, Or.inl rfl⟩
  · split
    · split
      · exact ⟨rfl, rfl, Or.inl rfl⟩
      · exact ⟨rfl, rfl, Or.inr ⟨_, rfl⟩⟩
    · exact h

theorem shepardSuccess_frame (o : Outcome) (r : JsVal) :
    (shepardSuccess o r).lastStatus = o.lastStatus ∧
    (shepardSuccess o r).contentType = o.contentType ∧
    ((shepardSuccess o r).written = o.written ∨
      ∃ b, (shepardSuccess o r).written = o.written ++ [b]) := by
  unfold shepardSuccess
  split
  · exact ⟨rfl, rfl, Or.inl rfl⟩
  · split
    · exact ⟨rfl, rfl, Or.inr ⟨_, rfl⟩⟩
    · split
      · exact ⟨rfl, rfl, Or.inl rfl⟩
      · exact ⟨rfl, rfl, Or.inr ⟨_, rfl⟩⟩

theorem respondCallShepard_frame (o : Outcome) (r : JsVal) :
    (respondCallShepard o r).lastStatus = o.lastStatus ∧
    (respondCallShepard o r).contentType = o.contentType ∧
    ((respondCallShepard o r).written = o.written ∨
      ∃ b, (respondCallShepard o r).written = o.written ++ [b]) := by
  unfold respondCallShepard
  split
  · exact ⟨rfl, rfl, Or.inr ⟨_, rfl⟩⟩
  · exact forwardErr_frame _ _ _ (shepardSuccess_frame o r)

theorem onInfo_frame (backend : Backend) (o : Outcome) :
    (Farm.onInfo backend o).lastStatus = o.lastStatus ∧
    (Farm.onInfo backend o).contentType = o.contentType ∧
    ((Farm.onInfo backend o).written = o.written ∨
      ∃ b, (Farm.onInfo backend o).written = o.written ++ [b]) := by
  unfold Farm.onInfo
  simp only
  split
  · exact ⟨rfl, rfl, Or.inl rfl⟩
  · exact ⟨rfl, rfl, Or.inr ⟨_, rfl⟩⟩

theorem onStatus_frame (backend : Backend) (o : Outcome) :
    (Farm.onStatus backend o).contentType = o.contentType ∧
    ((Farm.onStatus backend o).written = o.written ∨
      ∃ b, (Farm.onStatus backend o).written = o.written ++ [b]) := by
  unfold Farm.onStatus
  simp only
  split
  · exact ⟨rfl, Or.inl rfl⟩
  · exact ⟨rfl, Or.inr ⟨_, rfl⟩⟩

theorem onCallShepard_frame (self : Farm) (backend : Backend) (req : RequestData)
    (o : Outcome) :
    (self.onCallShepard backend req o).lastStatus = o.lastStatus ∧
    (self.onCallShepard backend req o).contentType = o.contentType ∧
    ((self.onCallShepard backend req o).written = o.written ∨
      ∃ b, (self.onCallShepard backend req o).written = o.written ++ [b]) := by
  unfold Farm.onCallShepard
  split
  · exact ⟨rfl, rfl, Or.inl rfl⟩
  · split
    · exact ⟨rfl, rfl, Or.inr ⟨_, rfl⟩⟩
    · split
      · exact ⟨rfl, rfl, Or.inl rfl⟩
      · split
        · exact ⟨rfl, rfl, Or.inl rfl⟩
        · simp only
          split
          · exact ⟨rfl, rfl, Or.inl rfl⟩
          · exact respondCallShepard_frame _ _

theorem onShepard_frame (backend : Backend) (req : RequestData) (o : Outcome) :
    (Farm.onShepard backend req o).lastStatus = o.lastStatus ∧
    (Farm.onShepard backend req o).contentType = o.contentType ∧
    ((Farm.onShepard backend req o).written = o.written ∨
      ∃ b, (Farm.onShepard backend req o).written = o.written ++ [b]) := by
  unfold Farm.onShepard
  simp only
  split
  · exact ⟨rfl, rfl, Or.inr ⟨_, rfl⟩⟩
  · split
    · exact ⟨rfl, rfl, Or.inl rfl⟩
    · unfold respondShepard
      split
      · exact ⟨rfl, rfl, Or.inr ⟨_, rfl⟩⟩
      · exact forwardErr_frame _ _ _ ⟨rfl, rfl, Or.inr ⟨_, rfl⟩⟩

theorem onBehbble_frame (backend : Backend) (req : RequestData) (o : Outcome) :
    (Farm.onBehbble backend req o).lastStatus = o.lastStatus ∧
    (Farm.onBehbble backend req o).contentType = o.contentType ∧
    ((Farm.onBehbble backend req o).written = o.written ∨
      ∃ b, (Farm.onBehbble backend req o).written = o.written ++ [b]) := by
  unfold Farm.onBehbble
  simp only
  split
  · exact ⟨rfl, rfl, Or.inr ⟨_, rfl⟩⟩
  · split
    · exact ⟨rfl, rfl, Or.inr ⟨_, rfl⟩⟩
    · split
      · exact ⟨rfl, rfl, Or.inl rfl⟩
      · unfold respondBehbble
        split
        · exact ⟨rfl, rfl, Or.inr ⟨_, rfl⟩⟩
        · exact forwardErr_frame _ _ _ ⟨rfl, rfl, Or.inl rfl⟩

theorem writePage_frame (o : Outcome) (n d : Except Exn JsVal) :
    (writePage o n d).lastStatus = o.lastStatus ∧
    (writePage o n d).contentType = o.contentType ∧
    ((writePage o n d).written = o.written ∨
      ∃ b, (writePage o n d).written = o.written ++ [b]) := by
  unfold writePage
  split
  · split
    · exact ⟨rfl, rfl, Or.inr ⟨_, rfl⟩⟩
    · exact ⟨rfl, rfl, Or.inl rfl⟩
  · exact ⟨rfl, rfl, Or.inl rfl⟩

theorem onFallback_frame (backend : Backend) (o : Outcome) :
    (Farm.onFallback backend o).lastStatus = o.lastStatus ∧
    ((Farm.onFallback backend o).written = o.written ∨
      ∃ b, (Farm.onFallback backend o).written = o.written ++ [b]) := by
  unfold Farm.onFallback
  simp only
  split
  · exact ⟨rfl, Or.inl rfl⟩
  all_goals
    refine ⟨(writePage_frame _ _ _).1, ?_⟩
    exact (writePage_frame _ _ _).2.2

/-! ## The capacity tracker -/

/-- C11: for every prior tracker state and every `status()` result `s` (returned
    directly or through a promise), after a `/status` request
    * the tracked status is the object `{capacity: 0, ...(s || {})}`;
    * the response payload is that same object;
    * every key reads in it as `s` supplies it, and otherwise as the default
      (`capacity` is 0, any other key is absent);
    * the object does not depend on the prior state: a farm with any other
      tracked status ends with the same one. -/
theorem C11_status_replaces_tracker (self : Farm) (backend : Backend) (req : RequestData)
    (s : JsVal) (hurl : req.url = ascii "/status")
    (hs : backend.status = .returns s ∨ backend.status = .resolves s) :
    (self.onRequest backend req).lastStatus
      = .obj (spreadInto [(ascii "capacity", .num 0)] (orElse s (.obj []))) ∧
    (self.onRequest backend req).written
      = [.json (.obj (spreadInto [(ascii "capacity", .num 0)] (orElse s (.obj []))))] ∧
    (∀ k, lookupField k (spreadInto [(ascii "capacity", .num 0)] (orElse s (.obj [])))
      = match lookupField k (ownEnumerable (orElse s (.obj []))) with
        | some v => some v
        | none => if k = ascii "capacity" then some (.num 0) else none) ∧
    (∀ other : Farm,
      (other.onRequest backend req).lastStatus = (self.onRequest backend req).lastStatus) := by
  have hrun : ∀ f : Farm, f.onRequest backend req
      = Farm.onStatus backend (Outcome.start f) := by
    intro f
    simp [Farm.onRequest, hurl, ascii_info, ascii_status]
  have haw : awaitCall backend.status = .ok s := by
    rcases hs with h | h <;> rw [h] <;> rfl
  have hst : ∀ f : Farm, (Farm.onStatus backend (Outcome.start f)).lastStatus
      = .obj (spreadInto [(ascii "capacity", .num 0)] (orElse s (.obj []))) := by
    intro f
    simp [Farm.onStatus, haw, sendResponse]
  refine ⟨?_, ?_, ?_, ?_⟩
  · rw [hrun, hst]
  · rw [hrun]
    simp [Farm.onStatus, haw, sendResponse, invoke, Outcome.start]
  · intro k
    rw [lookupField_spreadInto]
    cases lookupField k (ownEnumerable (orElse s (.obj []))) with
    | some v => rfl
    | none =>
      simp only [lookupField]
      by_cases h : ascii "capacity" = k
      · simp [h]
      · have h' : ¬ k = ascii "capacity" := fun e => h e.symm
        simp [h, h']
  · intro other
    rw [hrun, hrun, hst, hst]

/-- C11 at a concrete backend: the tracker holds `{capacity: 0, old: true}`,
    `status()` resolves to `{capacity: 1, load: 5}`, and afterwards the tracker
    and the payload are `{capacity: 1, load: 5}`. -/
theorem C11_status_replaces_tracker_witness :
    ((Farm.constructor ⟨.obj [(ascii "old", .bool true)], none⟩).onRequest
        { Farm.base with status :=
            CallResult.resolves (.obj [(ascii "capacity", .num 1), (ascii "load", .num 5)]) }
        ⟨ascii "GET", ascii "/status", .null⟩).lastStatus
      = .obj (spreadInto [(ascii "capacity", .num 0)]
          (orElse (.obj [(ascii "capacity", .num 1), (ascii "load", .num 5)]) (.obj []))) ∧
    spreadInto [(ascii "capacity", .num 0)]
          (orElse (.obj [(ascii "capacity", .num 1), (ascii "load", .num 5)]) (.obj []))
      = [(ascii "capacity", .num 1), (ascii "load", .num 5)] :=
  ⟨(C11_status_replaces_tracker
      (Farm.constructor ⟨.obj [(ascii "old", .bool true)], none⟩)
      { Farm.base with status :=
          CallResult.resolves (.obj [(ascii "capacity", .num 1), (ascii "load", .num 5)]) }
      ⟨ascii "GET", ascii "/status", .null⟩
      (.obj [(ascii "capacity", .num 1), (ascii "load", .num 5)]) rfl (Or.inr rfl)).1,
   rfl⟩

/-- C12: for every request whose url is not `/status`, whatever the backend
    does, the tracked status after the handler has run is the tracked status
    before it. -/
theorem C12_tracker_unchanged (self : Farm) (backend : Backend) (req : RequestData)
    (hurl : req.url ≠ ascii "/status") :
    (self.onRequest backend req).lastStatus = self.lastStatus := by
  unfold Farm.onRequest
  simp only [hurl, if_false]
  split
  · exact (onInfo_frame backend _).1
  · split
    · exact (onCallShepard_frame self backend req _).1
    · split
      · exact (onShepard_frame backend req _).1
      · split
        · exact (onBehbble_frame backend req _).1
        · exact (onFallback_frame backend _).1

/-- C12 at a concrete request: a farm that tracks `{capacity: 3}` still tracks
    it after a POST to `/call_shepard`. -/
theorem C12_tracker_unchanged_witness :
    ((Farm.constructor ⟨.obj [(ascii "capacity", .num 3)], none⟩).onRequest Farm.base
        ⟨ascii "POST", ascii "/call_shepard",
          .obj [(ascii "query", .str (ascii "hello"))]⟩).lastStatus
      = (Farm.constructor ⟨.obj [(ascii "capacity", .num 3)], none⟩).lastStatus :=
  C12_tracker_unchanged (Farm.constructor ⟨.obj [(ascii "capacity", .num 3)], none⟩) Farm.base
    ⟨ascii "POST", ascii "/call_shepard", .obj [(ascii "query", .str (ascii "hello"))]⟩
    (by decide)

/-- The constructor's tracked capacity: what `settings.status` supplies, and 0
    when it supplies none. -/
theorem constructor_capacity (settings : Settings) :
    getProp (Farm.constructor settings).lastStatus (ascii "capacity")
      = .ok (match lookupField (ascii "capacity")
                (ownEnumerable (orElse settings.status (.obj []))) with
             | some c => c
             | none => .num 0) := by
  simp only [Farm.constructor, getProp]
  rw [lookupField_spreadInto]
  cases lookupField (ascii "capacity") (ownEnumerable (orElse settings.status (.obj []))) with
  | some c => rfl
  | none => rfl

/-- C13: `isAtCapacity()` on a farm whose tracked capacity is the number `n`
    returns `true` exactly when `n ≥ 1`.  A farm constructed without an initial
    status, or with one that supplies no `capacity`, tracks the capacity 0 and
    is not at capacity; a capacity supplied to the constructor is the tracked
    one. -/
theorem C13_isAtCapacity (textGeOne : JsString → Bool) :
    (∀ (self : Farm) (n : Int),
      getProp self.lastStatus (ascii "capacity") = .ok (.num n) →
      self.isAtCapacity textGeOne = .ok (decide (1 ≤ n)) ∧
      (self.isAtCapacity textGeOne = .ok true ↔ 1 ≤ n)) ∧
    (∀ m : Option Int,
      getProp (Farm.constructor ⟨.undefined, m⟩).lastStatus (ascii "capacity")
        = .ok (.num 0) ∧
      (Farm.constructor ⟨.undefined, m⟩).isAtCapacity textGeOne = .ok false) ∧
    (∀ (status : JsVal) (m : Option Int),
      lookupField (ascii "capacity") (ownEnumerable (orElse status (.obj []))) = none →
      getProp (Farm.constructor ⟨status, m⟩).lastStatus (ascii "capacity") = .ok (.num 0) ∧
      (Farm.constructor ⟨status, m⟩).isAtCapacity textGeOne = .ok false) ∧
    (∀ (status c : JsVal) (m : Option Int),
      lookupField (ascii "capacity") (ownEnumerable (orElse status (.obj []))) = some c →
      getProp (Farm.constructor ⟨status, m⟩).lastStatus (ascii "capacity") = .ok c) := by
  have hnum : ∀ (self : Farm) (n : Int),
      getProp self.lastStatus (ascii "capacity") = .ok (.num n) →
      self.isAtCapacity textGeOne = .ok (decide (1 ≤ n)) := by
    intro self n h
    simp [Farm.isAtCapacity, h, geOne]
  have homit : ∀ (status : JsVal) (m : Option Int),
      lookupField (ascii "capacity") (ownEnumerable (orElse status (.obj []))) = none →
      getProp (Farm.constructor ⟨status, m⟩).lastStatus (ascii "capacity")
        = .ok (.num 0) := by
    intro status m h
    rw [constructor_capacity]
    simp only [h]
  refine ⟨?_, ?_, ?_, ?_⟩
  · intro self n h
    refine ⟨hnum self n h, ?_⟩
    rw [hnum self n h]
    simp
  · intro m
    have h := homit .undefined m rfl
    exact ⟨h, by rw [hnum _ 0 h]; rfl⟩
  · intro status m hc
    have h := homit status m hc
    exact ⟨h, by rw [hnum _ 0 h]; rfl⟩
  · intro status c m hc
    rw [constructor_capacity]
    simp only [hc]

/-- C13 at concrete farms: a farm constructed with `{capacity: 2}` is at
    capacity, a farm constructed without a status is not. -/
theorem C13_isAtCapacity_witness :
    (Farm.constructor ⟨.obj [(ascii "capacity", .num 2)], none⟩).isAtCapacity (fun _ => false)
      = .ok (decide ((1 : Int) ≤ 2)) ∧
    (Farm.constructor ⟨.undefined, none⟩).isAtCapacity (fun _ => false) = .ok false :=
  ⟨((C13_isAtCapacity (fun _ => false)).1
      (Farm.constructor ⟨.obj [(ascii "capacity", .num 2)], none⟩) 2 rfl).1,
   ((C13_isAtCapacity (fun _ => false)).2.1 none).2⟩

/-! ## The information route -/

/-- C14: for every `info()` result `r` (returned directly or through a promise,
    `null` and `undefined` included) that supplies no `is_farm`, the one
    response on `/info` is an object in which `is_farm` is `true` and in which
    every key that `r` supplies, `name` and `description` included, has the
    value that `r` gives it. -/
theorem C14_info_merges (self : Farm) (backend : Backend) (req : RequestData) (r : JsVal)
    (hurl : req.url = ascii "/info")
    (hr : backend.info = .returns r ∨ backend.info = .resolves r)
    (homit : lookupField (ascii "is_farm") (ownEnumerable (orElse r (.obj []))) = none) :
    ∃ fields,
      (self.onRequest backend req).written = [.json (.obj fields)] ∧
      lookupField (ascii "is_farm") fields = some (.bool true) ∧
      (∀ k v, lookupField k (ownEnumerable (orElse r (.obj []))) = some v →
        lookupField k fields = some v) := by
  have haw : awaitCall backend.info = .ok r := by
    rcases hr with h | h <;> rw [h] <;> rfl
  refine ⟨spreadInto
      [ (ascii "is_farm", .bool true),
        (ascii "name", .str (ascii "Untitled Farm")),
        (ascii "description", .str (ascii "A quiet farm...")),
        (ascii "version", Farm.thisVersion) ]
      (orElse r (.obj [])), ?_, ?_, ?_⟩
  · simp [Farm.onRequest, hurl, Farm.onInfo, haw, sendResponse, invoke, Outcome.start]
  · rw [lookupField_spreadInto, homit]
    rfl
  · intro k v hk
    rw [lookupField_spreadInto, hk]

/-- C14 at a concrete backend: `info()` resolves to `{name: "Mine"}` and the
    response is `{is_farm: true, name: "Mine", description: "A quiet farm...",
    version: undefined}`. -/
theorem C14_info_merges_witness :
    ∃ fields,
      ((Farm.constructor ⟨.undefined, none⟩).onRequest
          { Farm.base with info :=
              CallResult.resolves (.obj [(ascii "name", .str (ascii "Mine"))]) }
          ⟨ascii "GET", ascii "/info", .null⟩).written = [.json (.obj fields)] ∧
      lookupField (ascii "is_farm") fields = some (.bool true) ∧
      (∀ k v, lookupField k (ownEnumerable
            (orElse (.obj [(ascii "name", .str (ascii "Mine"))]) (.obj []))) = some v →
        lookupField k fields = some v) :=
  C14_info_merges (Farm.constructor ⟨.undefined, none⟩)
    { Farm.base with info := CallResult.resolves (.obj [(ascii "name", .str (ascii "Mine"))]) }
    ⟨ascii "GET", ascii "/info", .null⟩ (.obj [(ascii "name", .str (ascii "Mine"))])
    rfl (Or.inr rfl) rfl

/-- C15 (code defect, evaluated at the failing request): the `/info` handler
    fills the default `version` from `this.version`, but `version` is a `static`
    field (`Farm.version`, the text `1.0.0`), so the instance has no such
    property.  With the class's own `info()`, which supplies no `version`, the
    response is `{is_farm: true, name: ..., description: ..., version: undefined}`:
    its `version` is not defined (and `JSON.stringify` leaves the key out), so
    the response does not carry the declared version. -/
theorem C15_version_not_sent (self : Farm) :
    (self.onRequest Farm.base ⟨ascii "GET", ascii "/info", .null⟩).written
      = [.json (.obj [ (ascii "is_farm", .bool true),
                       (ascii "name", .str (ascii "Untitled Farm")),
                       (ascii "description", .str (ascii "A quiet farm...")),
                       (ascii "version", .undefined) ])] ∧
    hasProp (.obj [ (ascii "is_farm", .bool true),
                    (ascii "name", .str (ascii "Untitled Farm")),
                    (ascii "description", .str (ascii "A quiet farm...")),
                    (ascii "version", .undefined) ]) (ascii "version") = false ∧
    Farm.version = ascii "1.0.0" :=
  ⟨rfl, rfl, rfl⟩

/-! ## The query-submission route: the choice flag -/

/-- C16: on a POST to `/call_shepard` whose body carries a query (a defined
    `query` that has a string form), `callShepard` is called exactly once and
    its `isChoice` option is the boolean `!!body.isChoice`: `true` when the body
    sends `isChoice: true`, `false` when it sends `isChoice: false` or no
    `isChoice`. -/
theorem C16_isChoice_passed (self : Farm) (backend : Backend) (req : RequestData)
    (qv flag : JsVal) (text : JsString)
    (hurl : req.url = ascii "/call_shepard") (hmethod : req.method = ascii "POST")
    (hq : getProp req.body (ascii "query") = .ok qv) (hdef : isUndefined qv = false)
    (htext : jsToString qv = some text)
    (hflag : getProp req.body (ascii "isChoice") = .ok flag) :
    (self.onRequest backend req).calls
      = [.callShepard (jsSlice text self.maxQueryLength) (truthy flag)] ∧
    (flag = .bool true → (self.onRequest backend req).calls
      = [.callShepard (jsSlice text self.maxQueryLength) true]) ∧
    (flag = .bool false → (self.onRequest backend req).calls
      = [.callShepard (jsSlice text self.maxQueryLength) false]) ∧
    (flag = .undefined → (self.onRequest backend req).calls
      = [.callShepard (jsSlice text self.maxQueryLength) false]) := by
  obtain ⟨flag', hflag', hrun⟩ := onCallShepard_call self backend req (Outcome.start self) qv
    text hq hdef htext
  have hff : flag' = flag := by
    rw [hflag] at hflag'
    exact (Except.ok.inj hflag').symm
  subst hff
  have hcalls : (self.onRequest backend req).calls
      = [.callShepard (jsSlice text self.maxQueryLength) (truthy flag')] := by
    rw [route_call_shepard self backend req hurl hmethod, hrun]
    split
    · rfl
    · rw [respondCallShepard_calls]; rfl
  refine ⟨hcalls, ?_, ?_, ?_⟩ <;> intro h <;> rw [hcalls, h] <;> rfl

/-- C16 at the request of the specification: the body
    `{query: "hello", isChoice: true}` passes `isChoice: true`. -/
theorem C16_isChoice_passed_witness :
    ((Farm.constructor ⟨.undefined, none⟩).onRequest Farm.base
        ⟨ascii "POST", ascii "/call_shepard",
          .obj [(ascii "query", .str (ascii "hello")), (ascii "isChoice", .bool true)]⟩).calls
      = [.callShepard (jsSlice (ascii "hello") (Farm.constructor ⟨.undefined, none⟩).maxQueryLength)
          true] :=
  (C16_isChoice_passed (Farm.constructor ⟨.undefined, none⟩) Farm.base
    ⟨ascii "POST", ascii "/call_shepard",
      .obj [(ascii "query", .str (ascii "hello")), (ascii "isChoice", .bool true)]⟩
    (.str (ascii "hello")) (.bool true) (ascii "hello") rfl rfl rfl rfl rfl rfl).2.1 rfl

/-! ## The fallback page -/

/-- C17 (code defect, evaluated at the failing backend): the fallback calls
    `this.info()` without `await`.  When `info()` is `async` and resolves to
    `{name: "My Farm", description: "Mine"}`, the handler reads `name` and
    `description` on the promise, finds neither, and the page for `GET /` says
    `Name: undefined` and `Description: undefined`; on `/info` the same backend
    is awaited and its name is sent. -/
theorem C17_fallback_ignores_async_info (self : Farm) :
    (self.onRequest
        { Farm.base with info :=
            CallResult.resolves (.obj [ (ascii "name", .str (ascii "My Farm")),
                                        (ascii "description", .str (ascii "Mine")) ]) }
        ⟨ascii "GET", ascii "/", .null⟩).written
      = [.text (ascii
          "This is a Behbble server!\n\nName: undefined\nDescription: undefined\n")] ∧
    (self.onRequest
        { Farm.base with info :=
            CallResult.resolves (.obj [ (ascii "name", .str (ascii "My Farm")),
                                        (ascii "description", .str (ascii "Mine")) ]) }
        ⟨ascii "GET", ascii "/", .null⟩).contentType = ascii "text/plain" ∧
    (self.onRequest
        { Farm.base with info :=
            CallResult.resolves (.obj [ (ascii "name", .str (ascii "My Farm")),
                                        (ascii "description", .str (ascii "Mine")) ]) }
        ⟨ascii "GET", ascii "/info", .null⟩).written
      = [.json (.obj [ (ascii "is_farm", .bool true),
                       (ascii "name", .str (ascii "My Farm")),
                       (ascii "description", .str (ascii "Mine")),
                       (ascii "version", .undefined) ])] :=
  ⟨rfl, rfl, rfl⟩

/-- The part of C17 that the code does satisfy for an `info()` that is not
    `async`: on a request that matches none of the five routes, the handler sets
    `text/plain` and writes the page with the `name` and the `description` of the
    returned object. -/
theorem fallback_page_sync (self : Farm) (backend : Backend) (req : RequestData)
    (info n d : JsVal) (name description : JsString)
    (h1 : req.url ≠ ascii "/info") (h2 : req.url ≠ ascii "/status")
    (h3 : ¬ (req.url = ascii "/call_shepard" ∧ req.method = ascii "POST"))
    (h4 : startsWith req.url (ascii "/shepard") = false)
    (h5 : startsWith req.url (ascii "/behbble") = false)
    (hinfo : backend.info = .returns info)
    (hn : getProp info (ascii "name") = .ok n) (hd : getProp info (ascii "description") = .ok d)
    (hname : jsToString n = some name) (hdesc : jsToString d = some description) :
    (self.onRequest backend req).contentType = ascii "text/plain" ∧
    (self.onRequest backend req).written = [.text (fallbackPage name description)] := by
  simp [Farm.onRequest, h1, h2, h3, h4, h5, Farm.onFallback, hinfo, writePage, hn, hd, hname,
    hdesc, invoke, Outcome.start]

/-- The part of C17 about the five routes: a request that matches one of them
    keeps `Content-Type: application/json`. -/
theorem routes_keep_json (self : Farm) (backend : Backend) (req : RequestData)
    (h : req.url = ascii "/info" ∨ req.url = ascii "/status" ∨
      (req.url = ascii "/call_shepard" ∧ req.method = ascii "POST") ∨
      startsWith req.url (ascii "/shepard") = true ∨
      startsWith req.url (ascii "/behbble") = true) :
    (self.onRequest backend req).contentType = ascii "application/json" := by
  unfold Farm.onRequest
  simp only
  split
  · exact (onInfo_frame backend _).2.1
  · split
    · exact (onStatus_frame backend _).1
    · split
      · exact (onCallShepard_frame self backend req _).2.1
      · split
        · exact (onShepard_frame backend req _).2.1
        · split
          · exact (onBehbble_frame backend req _).2.1
          · rename_i n1 n2 n3 n4 n5
            rcases h with h | h | h | h | h
            · exact absurd h n1
            · exact absurd h n2
            · exact absurd h n3
            · exact absurd h n4
            · exact absurd h n5

/-! ## The configured maximum length -/

/-- The calls made by the query-submission branch: at most the one to
    `callShepard`, with a query cut by `slice(0, maxQueryLength)`. -/
theorem onCallShepard_calls (self : Farm) (backend : Backend) (req : RequestData)
    (o : Outcome) (c : Call) (h : c ∈ (self.onCallShepard backend req o).calls) :
    c ∈ o.calls ∨ ∃ text b, c = .callShepard (jsSlice text self.maxQueryLength) b := by
  unfold Farm.onCallShepard at h
  split at h
  · exact Or.inl h
  · split at h
    · exact Or.inl h
    · split at h
      · exact Or.inl h
      · split at h
        · exact Or.inl h
        · simp only at h
          split at h
          · simp only [raise, invoke, List.mem_append, List.mem_singleton] at h
            rcases h with h' | h'
            · exact Or.inl h'
            · exact Or.inr ⟨_, _, h'⟩
          · rw [respondCallShepard_calls] at h
            simp only [invoke, List.mem_append, List.mem_singleton] at h
            rcases h with h' | h'
            · exact Or.inl h'
            · exact Or.inr ⟨_, _, h'⟩

theorem onShepard_calls (backend : Backend) (req : RequestData) (o : Outcome) (c : Call)
    (h : c ∈ (Farm.onShepard backend req o).calls) :
    c ∈ o.calls ∨ ∃ id, c = .getShepardBehbbles id := by
  unfold Farm.onShepard at h
  simp only at h
  split at h
  · exact Or.inl h
  · have hmem : c ∈ o.calls ++ [Call.getShepardBehbbles (elemAt (jsSplit 47 req.url) 2)] := by
      split at h
      · exact h
      · unfold respondShepard at h
        split at h
        · exact h
        · rw [forwardErr_calls (invoke o _) (sendResponse (invoke o _) _) _
            (by simp [sendResponse])] at h
          exact h
    rcases List.mem_append.mp hmem with h' | h'
    · exact Or.inl h'
    · exact Or.inr ⟨_, List.mem_singleton.mp h'⟩

theorem onBehbble_calls (backend : Backend) (req : RequestData) (o : Outcome) (c : Call)
    (h : c ∈ (Farm.onBehbble backend req o).calls) :
    c ∈ o.calls ∨ ∃ s b, c = .getBehbble s b := by
  unfold Farm.onBehbble at h
  simp only at h
  split at h
  · exact Or.inl h
  · split at h
    · exact Or.inl h
    · have hmem : c ∈ o.calls ++ [Call.getBehbble (elemAt (jsSplit 47 req.url) 2)
          (elemAt (jsSplit 47 req.url) 3)] := by
        split at h
        · exact h
        · unfold respondBehbble at h
          split at h
          · exact h
          · rw [forwardErr_calls _ _ _ rfl] at h; exact h
      rcases List.mem_append.mp hmem with h' | h'
      · exact Or.inl h'
      · exact Or.inr ⟨_, _, List.mem_singleton.mp h'⟩

theorem writePage_calls (o : Outcome) (n d : Except Exn JsVal) :
    (writePage o n d).calls = o.calls := by
  unfold writePage
  split
  · split <;> rfl
  · rfl

theorem onFallback_calls (backend : Backend) (o : Outcome) :
    (Farm.onFallback backend o).calls = o.calls ++ [.info] := by
  unfold Farm.onFallback
  simp only
  split
  · rfl
  all_goals rw [writePage_calls]; rfl

theorem onInfo_calls (backend : Backend) (o : Outcome) :
    (Farm.onInfo backend o).calls = o.calls ++ [.info] := by
  unfold Farm.onInfo
  simp only
  split <;> rfl

theorem onStatus_calls (backend : Backend) (o : Outcome) :
    (Farm.onStatus backend o).calls = o.calls ++ [.status] := by
  unfold Farm.onStatus
  simp only
  split <;> rfl

/-- Every query that reaches `callShepard` was cut by
    `slice(0, maxQueryLength)`. -/
theorem callShepard_query_sliced (self : Farm) (backend : Backend) (req : RequestData)
    (q : JsString) (b : Bool)
    (h : Call.callShepard q b ∈ (self.onRequest backend req).calls) :
    ∃ text, q = jsSlice text self.maxQueryLength := by
  unfold Farm.onRequest at h
  simp only at h
  split at h
  · rw [onInfo_calls] at h; simp [Outcome.start] at h
  · split at h
    · rw [onStatus_calls] at h; simp [Outcome.start] at h
    · split at h
      · rcases onCallShepard_calls _ _ _ _ _ h with h' | ⟨text, b', h'⟩
        · simp [Outcome.start] at h'
        · exact ⟨text, (Call.callShepard.inj h').1⟩
      · split at h
        · rcases onShepard_calls _ _ _ _ h with h' | ⟨id, h'⟩
          · simp [Outcome.start] at h'
          · cases h'
        · split at h
          · rcases onBehbble_calls _ _ _ _ h with h' | ⟨s, b', h'⟩
            · simp [Outcome.start] at h'
            · cases h'
          · rw [onFallback_calls] at h; simp [Outcome.start] at h

/-- A non-negative bound bounds the length of the slice. -/
theorem jsSlice_length_le (text : JsString) (m : Int) (hm : 0 ≤ m) :
    ((jsSlice text m).length : Int) ≤ m := by
  have : ¬ m < 0 := by omega
  simp only [jsSlice, this, if_false, List.length_take]
  omega

/-- C18 (as amended): for every settings object passed to the constructor,
    * the effective maximum query length is the supplied `maxQueryLength` when a
      non-zero integer is supplied;
    * it is 256 when none is supplied, and also when 0 is supplied;
    * for every supplied integer `m ≥ 1`, no query longer than `m` reaches
      `callShepard`. -/
theorem C18_max_query_length (settings : Settings) :
    (∀ m : Int, settings.maxQueryLength = some m → m ≠ 0 →
      (Farm.constructor settings).maxQueryLength = m) ∧
    (settings.maxQueryLength = none ∨ settings.maxQueryLength = some 0 →
      (Farm.constructor settings).maxQueryLength = 256) ∧
    (∀ m : Int, settings.maxQueryLength = some m → 1 ≤ m →
      ∀ (self : Farm) (backend : Backend) (req : RequestData) (q : JsString) (b : Bool),
        self.maxQueryLength = (Farm.constructor settings).maxQueryLength →
        Call.callShepard q b ∈ (self.onRequest backend req).calls →
        (q.length : Int) ≤ m) := by
  refine ⟨?_, ?_, ?_⟩
  · intro m hset hne
    simp [Farm.constructor, hset, hne]
  · intro h
    rcases h with h | h <;> simp [Farm.constructor, h]
  · intro m hset hpos self backend req q b hcfg hcall
    have hmax : self.maxQueryLength = m := by
      rw [hcfg, constructor_maxQueryLength settings m hset hpos]
    obtain ⟨text, rfl⟩ := callShepard_query_sliced self backend req q b hcall
    rw [hmax]
    exact jsSlice_length_le text m (by omega)

/-- C18 (as amended) at a concrete farm: constructed with the maximum length 3,
    the farm keeps 3, and the query `hello` reaches `callShepard` as a text of
    at most 3 characters. -/
theorem C18_max_query_length_witness :
    (Farm.constructor ⟨.undefined, some 3⟩).maxQueryLength = 3 ∧
    (∀ (q : JsString) (b : Bool),
      Call.callShepard q b ∈ ((Farm.constructor ⟨.undefined, some 3⟩).onRequest Farm.base
        ⟨ascii "POST", ascii "/call_shepard",
          .obj [(ascii "query", .str (ascii "hello"))]⟩).calls →
      (q.length : Int) ≤ 3) :=
  ⟨(C18_max_query_length ⟨.undefined, some 3⟩).1 3 rfl (by decide),
   fun q b h => (C18_max_query_length ⟨.undefined, some 3⟩).2.2 3 rfl (by decide)
      (Farm.constructor ⟨.undefined, some 3⟩) Farm.base
      ⟨ascii "POST", ascii "/call_shepard", .obj [(ascii "query", .str (ascii "hello"))]⟩
      q b rfl h⟩

/-- C18 (counterexample): a farm constructed with `maxQueryLength: 0` has the
    effective maximum 256, not the supplied 0, and the query `hello`, which is
    longer than 0 characters, reaches `callShepard` whole. -/
theorem C18_zero_is_replaced :
    (Farm.constructor ⟨.undefined, some 0⟩).maxQueryLength = 256 ∧
    ((Farm.constructor ⟨.undefined, some 0⟩).onRequest Farm.base
        ⟨ascii "POST", ascii "/call_shepard",
          .obj [(ascii "query", .str (ascii "hello"))]⟩).calls
      = [.callShepard (ascii "hello") false] ∧
    (ascii "hello").length = 5 :=
  ⟨rfl, rfl, rfl⟩

/-! ## The query-submission route: the value of `query` -/

/-- C19 (code defect, evaluated at the failing request): a POST to
    `/call_shepard` with the body `{"query": {"toString": 1}}`.  The field is
    present, so the `NO_QUERY_PROVIDED` check passes; `String(farm_query)` then
    raises a `TypeError`, because the object's own `toString` is not callable:
    `callShepard` is not called, nothing is written, and the handler's promise
    rejects. -/
theorem C19_query_without_string_form (self : Farm) (backend : Backend) :
    (self.onRequest backend
        ⟨ascii "POST", ascii "/call_shepard",
          .obj [(ascii "query", .obj [(ascii "toString", .num 1)])]⟩).calls = [] ∧
    (self.onRequest backend
        ⟨ascii "POST", ascii "/call_shepard",
          .obj [(ascii "query", .obj [(ascii "toString", .num 1)])]⟩).written = [] ∧
    (self.onRequest backend
        ⟨ascii "POST", ascii "/call_shepard",
          .obj [(ascii "query", .obj [(ascii "toString", .num 1)])]⟩).threw
      = some Exn.typeError := by
  refine ⟨?_, ?_, ?_⟩ <;> rw [route_call_shepard _ _ _ rfl rfl] <;> rfl

/-- The part of C19 that the code does satisfy: a `query` that is present with
    a value that has a string form is passed on, cut to the maximum length, and
    `NO_QUERY_PROVIDED` is not sent.  For `null`, the empty string, `0` and
    `false` the text passed is `null`, the empty text, `0` and `false`. -/
theorem present_query_passed (self : Farm) (backend : Backend) (req : RequestData)
    (qv : JsVal) (text : JsString)
    (hurl : req.url = ascii "/call_shepard") (hmethod : req.method = ascii "POST")
    (hq : getProp req.body (ascii "query") = .ok qv) (hdef : isUndefined qv = false)
    (htext : jsToString qv = some text) :
    (∃ b, (self.onRequest backend req).calls
      = [.callShepard (jsSlice text self.maxQueryLength) b]) ∧
    jsToString .null = some (ascii "null") ∧
    jsToString (.str []) = some [] ∧
    jsToString (.num 0) = some (ascii "0") ∧
    jsToString (.bool false) = some (ascii "false") := by
  obtain ⟨flag', -, hrun⟩ := onCallShepard_call self backend req (Outcome.start self) qv
    text hq hdef htext
  refine ⟨⟨truthy flag', ?_⟩, rfl, rfl, by decide, rfl⟩
  rw [route_call_shepard self backend req hurl hmethod, hrun]
  split
  · rfl
  · rw [respondCallShepard_calls]; rfl

/-! ## Writes per request -/

/-- C20: for every request and every backend behaviour, the handler passes at
    most one body to `response.end`; and on the `/behbble` route, with both ids
    present and a backend result that is truthy and has no truthy `err`, it
    passes none: the response is left to the backend. -/
theorem C20_at_most_one_write (self : Farm) (backend : Backend) (req : RequestData) :
    (self.onRequest backend req).written.length ≤ 1 ∧
    (startsWith req.url (ascii "/behbble") = true →
      truthy (elemAt (jsSplit 47 req.url) 2) = true →
      truthy (elemAt (jsSplit 47 req.url) 3) = true →
      ∀ r e : JsVal,
        backend.getBehbble (elemAt (jsSplit 47 req.url) 2) (elemAt (jsSplit 47 req.url) 3)
          = .resolves r →
        truthy r = true → getProp r (ascii "err") = .ok e → truthy e = false →
        (self.onRequest backend req).written = []) := by
  constructor
  · have key : ∀ o' : Outcome,
        (o'.written = (Outcome.start self).written ∨
          ∃ b, o'.written = (Outcome.start self).written ++ [b]) →
        o'.written.length ≤ 1 := by
      intro o' h
      rcases h with h | ⟨b, h⟩ <;> rw [h] <;> simp [Outcome.start]
    unfold Farm.onRequest
    simp only
    split
    · exact key _ (onInfo_frame backend _).2.2
    · split
      · exact key _ (onStatus_frame backend _).2
      · split
        · exact key _ (onCallShepard_frame self backend req _).2.2
        · split
          · exact key _ (onShepard_frame backend req _).2.2
          · split
            · exact key _ (onBehbble_frame backend req _).2.2
            · exact key _ (onFallback_frame backend _).2
  · intro hurl hs hb r e hres htr he hfe
    rw [route_behbble self backend req hurl, onBehbble_resolved backend req _ r hs hb hres]
    simp only [respondBehbble, htr, Bool.not_true, Bool.false_eq_true, if_false]
    rw [forwardErr_falsy _ _ r e he hfe]
    rfl

/-- C20 at a concrete backend: on `/behbble/abc/b1`, when `getBehbble` resolves
    to `{id: "b1"}`, the dispatcher writes nothing. -/
theorem C20_at_most_one_write_witness :
    ((Farm.constructor ⟨.undefined, none⟩).onRequest
        { Farm.base with getBehbble := fun _ _ =>
            CallResult.resolves (.obj [(ascii "id", .str (ascii "b1"))]) }
        ⟨ascii "GET", ascii "/behbble/abc/b1", .null⟩).written = [] :=
  (C20_at_most_one_write (Farm.constructor ⟨.undefined, none⟩)
    { Farm.base with getBehbble := fun _ _ =>
        CallResult.resolves (.obj [(ascii "id", .str (ascii "b1"))]) }
    ⟨ascii "GET", ascii "/behbble/abc/b1", .null⟩).2 (by decide) rfl rfl
    (.obj [(ascii "id", .str (ascii "b1"))]) .undefined rfl rfl rfl rfl
